import Mathlib

/-!
Verification development for the WebGL shader/kernel compiler of a tensor
computation library. The development shallowly embeds:

* the GLSL helper functions emitted by the shader assembler
  (imod, packedUVfrom2D, getChannel, uvFromFlat, ...);
* the coordinate mapping compiler in its compute-shader (CS) form
  (getOutputXDCoordsCS decoders, getSamplerXDCS samplers, rank dispatch);
* the broadcast handling of the get-name-AtOutCoords accessors;
* the four tiled matrix multiplication kernel generators
  (MatMulPackedProgramCS and its V2, V3, V4 variants) and the cache-tiled
  convolution kernels (Conv2DProgramCS, DepthwiseConv2DProgramCS).

Scalar values carried by textures are modelled as rationals (exact
arithmetic standing for device floating point; equalities proved here are
the statements that hold up to floating tolerance on the device).
GLSL ivec2 values are modelled as pairs, vec4 values as a four field
structure. GLSL integer arithmetic on non negative quantities is modelled
on Nat, and on possibly negative quantities (convolution corners) on Int,
with Int.tdiv standing for the truncating integer division of GLSL.
-/

namespace TFJS

/-- A GLSL `vec4` with rational components; fields x y z w correspond to
the channels r g b a. -/
structure Vec4 where
  x : ℚ
  y : ℚ
  z : ℚ
  w : ℚ
deriving DecidableEq

namespace Vec4

def add (a b : Vec4) : Vec4 := ⟨a.x + b.x, a.y + b.y, a.z + b.z, a.w + b.w⟩

def mul (a b : Vec4) : Vec4 := ⟨a.x * b.x, a.y * b.y, a.z * b.z, a.w * b.w⟩

instance : Add Vec4 := ⟨Vec4.add⟩

instance : Mul Vec4 := ⟨Vec4.mul⟩

instance : Zero Vec4 := ⟨⟨0, 0, 0, 0⟩⟩

theorem add_def (a b : Vec4) :
    a + b = ⟨a.x + b.x, a.y + b.y, a.z + b.z, a.w + b.w⟩ := rfl

theorem mul_def (a b : Vec4) :
    a * b = ⟨a.x * b.x, a.y * b.y, a.z * b.z, a.w * b.w⟩ := rfl

theorem zero_def : (0 : Vec4) = ⟨0, 0, 0, 0⟩ := rfl

instance : AddCommMonoid Vec4 where
  add_assoc a b c := by
    cases a; cases b; cases c
    simp only [add_def, Vec4.mk.injEq]
    refine ⟨?_, ?_, ?_, ?_⟩ <;> ring
  zero_add a := by cases a; simp [add_def, zero_def]
  add_zero a := by cases a; simp [add_def, zero_def]
  add_comm a b := by
    cases a; cases b
    simp only [add_def, Vec4.mk.injEq]
    refine ⟨?_, ?_, ?_, ?_⟩ <;> ring
  nsmul := nsmulRec

/-- Projection of the x channel as an additive monoid homomorphism
(used to push sums of vec4 accumulators into per channel sums). -/
def xHom : Vec4 →+ ℚ := ⟨⟨Vec4.x, rfl⟩, fun _ _ => rfl⟩

def yHom : Vec4 →+ ℚ := ⟨⟨Vec4.y, rfl⟩, fun _ _ => rfl⟩

def zHom : Vec4 →+ ℚ := ⟨⟨Vec4.z, rfl⟩, fun _ _ => rfl⟩

def wHom : Vec4 →+ ℚ := ⟨⟨Vec4.w, rfl⟩, fun _ _ => rfl⟩

/-- GLSL swizzle `a.xxzz`. -/
def xxzz (a : Vec4) : Vec4 := ⟨a.x, a.x, a.z, a.z⟩

/-- GLSL swizzle `a.yyww`. -/
def yyww (a : Vec4) : Vec4 := ⟨a.y, a.y, a.w, a.w⟩

/-- GLSL swizzle `a.xxyy`. -/
def xxyy (a : Vec4) : Vec4 := ⟨a.x, a.x, a.y, a.y⟩

/-- GLSL swizzle `a.zzww`. -/
def zzww (a : Vec4) : Vec4 := ⟨a.z, a.z, a.w, a.w⟩

/-- GLSL swizzle `b.xyxy`. -/
def xyxy (a : Vec4) : Vec4 := ⟨a.x, a.y, a.x, a.y⟩

/-- GLSL swizzle `b.zwzw`. -/
def zwzw (a : Vec4) : Vec4 := ⟨a.z, a.w, a.z, a.w⟩

/-- GLSL swizzle `b.xzxz`. -/
def xzxz (a : Vec4) : Vec4 := ⟨a.x, a.z, a.x, a.z⟩

/-- GLSL swizzle `b.ywyw`. -/
def ywyw (a : Vec4) : Vec4 := ⟨a.y, a.w, a.y, a.w⟩

theorem ext_components {a b : Vec4} (hx : a.x = b.x) (hy : a.y = b.y)
    (hz : a.z = b.z) (hw : a.w = b.w) : a = b := by
  cases a; cases b
  cases hx; cases hy; cases hz; cases hw
  rfl

theorem sum_mk (s : Finset ℕ) (f1 f2 f3 f4 : ℕ → ℚ) :
    (∑ k ∈ s, (⟨f1 k, f2 k, f3 k, f4 k⟩ : Vec4)) =
      ⟨∑ k ∈ s, f1 k, ∑ k ∈ s, f2 k, ∑ k ∈ s, f3 k, ∑ k ∈ s, f4 k⟩ := by
  refine ext_components ?_ ?_ ?_ ?_
  · exact map_sum xHom (fun k => (⟨f1 k, f2 k, f3 k, f4 k⟩ : Vec4)) s
  · exact map_sum yHom (fun k => (⟨f1 k, f2 k, f3 k, f4 k⟩ : Vec4)) s
  · exact map_sum zHom (fun k => (⟨f1 k, f2 k, f3 k, f4 k⟩ : Vec4)) s
  · exact map_sum wHom (fun k => (⟨f1 k, f2 k, f3 k, f4 k⟩ : Vec4)) s

end Vec4

/-!
## The emitted `imod` helper

Both shader prefixes (`getShaderPrefix` and `getShaderPrefixCS` in the
shader compiler) emit

  int imod(int x, int y) { return x - y * (x / y); }

where GLSL `/` on int truncates toward zero; `Int.tdiv` is this division.
-/

/-- Model of the emitted `imod` helper: `x - y * (x / y)` with GLSL
(truncating) integer division. -/
def imod (x y : ℤ) : ℤ := x - y * (Int.tdiv x y)

/-!
## Tiling of the packed shared dimension (matmul kernel generators)

Every matmul variant interpolates `numTiles = Math.ceil(sharedDimensionPacked
/ TS)` and an inner loop bound

  int sizeTS = (t == (numTiles - 1) && sharedDimensionPacked % TS != 0) ?
               sharedDimensionPacked % TS : TS;

into the generated source (with `TSK` in place of `TS` in the V4 variant).
-/

/-- `Math.ceil(S / TS)` on naturals, as interpolated into the kernels. -/
def numTiles (TS S : ℕ) : ℕ := (S + TS - 1) / TS

/-- The inner accumulation loop bound of tile `t`: the remainder
`S % TS` on a final partial tile, `TS` otherwise. -/
def sizeTS (TS S t : ℕ) : ℕ :=
  if t = numTiles TS S - 1 ∧ S % TS ≠ 0 then S % TS else TS

theorem numTiles_of_mod_eq_zero {TS S : ℕ} (hTS : 0 < TS) (h : S % TS = 0) :
    numTiles TS S = S / TS := by
  have hdm := Nat.div_add_mod S TS
  rcases Nat.eq_zero_or_pos S with hS | hS
  · subst hS
    simp [numTiles, Nat.div_eq_of_lt (by omega : TS - 1 < TS)]
  · unfold numTiles
    have he : S + TS - 1 = (TS - 1) + TS * (S / TS) := by omega
    rw [he, Nat.add_mul_div_left _ _ hTS,
      Nat.div_eq_of_lt (by omega : TS - 1 < TS), Nat.zero_add]

theorem numTiles_of_mod_ne_zero {TS S : ℕ} (hTS : 0 < TS) (h : S % TS ≠ 0) :
    numTiles TS S = S / TS + 1 := by
  have hdm := Nat.div_add_mod S TS
  have hmlt : S % TS < TS := Nat.mod_lt _ hTS
  unfold numTiles
  have he : S + TS - 1 = (S % TS - 1 + TS) + TS * (S / TS) := by omega
  rw [he, Nat.add_mul_div_left _ _ hTS, Nat.add_div_right _ hTS,
    Nat.div_eq_of_lt (by omega : S % TS - 1 < TS)]
  omega

theorem sizeTS_le {TS S t : ℕ} (hTS : 0 < TS) : sizeTS TS S t ≤ TS := by
  unfold sizeTS
  split
  · exact Nat.le_of_lt (Nat.mod_lt _ hTS)
  · exact Nat.le_refl _

/-- Every position `TS * t + i` visited by the tiled accumulation loops
lies below the packed shared dimension `S`: the kernels never read past
the logical bound. -/
theorem tile_pos_lt {TS S t i : ℕ} (hTS : 0 < TS)
    (ht : t < numTiles TS S) (hi : i < sizeTS TS S t) : TS * t + i < S := by
  have hdm := Nat.div_add_mod S TS
  have hmlt : S % TS < TS := Nat.mod_lt _ hTS
  by_cases hr : S % TS = 0
  · rw [numTiles_of_mod_eq_zero hTS hr] at ht
    have hiTS : i < TS := Nat.lt_of_lt_of_le hi (sizeTS_le hTS)
    have : TS * t + TS ≤ TS * (S / TS) := by
      calc TS * t + TS = TS * (t + 1) := by ring
      _ ≤ TS * (S / TS) := Nat.mul_le_mul_left _ (by omega)
    omega
  · rw [numTiles_of_mod_ne_zero hTS hr] at ht
    rcases Nat.lt_or_ge t (S / TS) with hlt | hge
    · have hiTS : i < TS := Nat.lt_of_lt_of_le hi (sizeTS_le hTS)
      have : TS * t + TS ≤ TS * (S / TS) := by
        calc TS * t + TS = TS * (t + 1) := by ring
        _ ≤ TS * (S / TS) := Nat.mul_le_mul_left _ (by omega)
      omega
    · have hteq : t = S / TS := by omega
      have hlast : t = numTiles TS S - 1 := by
        rw [numTiles_of_mod_ne_zero hTS hr]; omega
      have : sizeTS TS S t = S % TS := by
        unfold sizeTS
        rw [if_pos ⟨hlast, hr⟩]
      rw [this] at hi
      subst hteq
      omega

/-- Summing the loop body over all tiles and inner positions is the sum
over the packed positions `0 .. S-1`: across all tiles exactly the `S`
packed positions of the contraction dimension are accumulated, each once. -/
theorem tile_cover_sum {M : Type} [AddCommMonoid M] (TS S : ℕ) (hTS : 0 < TS)
    (f : ℕ → M) :
    (∑ t ∈ Finset.range (numTiles TS S),
      ∑ i ∈ Finset.range (sizeTS TS S t), f (TS * t + i))
      = ∑ k ∈ Finset.range S, f k := by
  have hdm := Nat.div_add_mod S TS
  have hmlt : S % TS < TS := Nat.mod_lt _ hTS
  rw [Finset.sum_sigma' (Finset.range (numTiles TS S))
    (fun t => Finset.range (sizeTS TS S t)) (fun t i => f (TS * t + i))]
  refine Finset.sum_bij' (fun p _ => TS * p.fst + p.snd)
    (fun k _ => ⟨k / TS, k % TS⟩) ?_ ?_ ?_ ?_ ?_
  · intro p hp
    rw [Finset.mem_sigma, Finset.mem_range, Finset.mem_range] at hp
    rw [Finset.mem_range]
    exact tile_pos_lt hTS hp.1 hp.2
  · intro k hk
    rw [Finset.mem_range] at hk
    have hkdm := Nat.div_add_mod k TS
    have hkm : k % TS < TS := Nat.mod_lt _ hTS
    have hdm := Nat.div_add_mod S TS
    have h1 : k / TS < numTiles TS S := by
      by_cases hr : S % TS = 0
      · rw [numTiles_of_mod_eq_zero hTS hr]
        exact Nat.div_lt_div_of_lt_of_dvd (Nat.dvd_of_mod_eq_zero hr) hk
      · rw [numTiles_of_mod_ne_zero hTS hr]
        have : k / TS ≤ S / TS := Nat.div_le_div_right (Nat.le_of_lt hk)
        omega
    have h2 : k % TS < sizeTS TS S (k / TS) := by
      unfold sizeTS
      split
      · rename_i hcase
        rcases hcase with ⟨hlast, hr⟩
        have hmlt : S % TS < TS := Nat.mod_lt _ hTS
        have hkq : k / TS = S / TS := by
          rw [hlast, numTiles_of_mod_ne_zero hTS hr, Nat.add_sub_cancel]
        rw [hkq] at hkdm
        omega
      · exact hkm
    exact Finset.mem_sigma.mpr ⟨Finset.mem_range.mpr h1, Finset.mem_range.mpr h2⟩
  · intro p hp
    rw [Finset.mem_sigma, Finset.mem_range, Finset.mem_range] at hp
    have hi : p.snd < TS := Nat.lt_of_lt_of_le hp.2 (sizeTS_le hTS)
    have h1 : (TS * p.fst + p.snd) / TS = p.fst := by
      rw [Nat.mul_add_div hTS, Nat.div_eq_of_lt hi]; omega
    have h2 : (TS * p.fst + p.snd) % TS = p.snd := by
      rw [Nat.mul_add_mod, Nat.mod_eq_of_lt hi]
    dsimp only
    exact Sigma.ext h1 (heq_of_eq h2)
  · intro k hk
    dsimp only
    exact Nat.div_add_mod k TS
  · intro p hp
    rfl

/-!
## Packed texture model for batched matrices

A matmul operand is a batched matrix `A : batch → row → col → ℚ` with
logical per-batch dimensions `rows × cols`. In packed texture mode one
texel holds a 2×2 logical block (spec section 4.2); reads outside the
logical bounds return the zero padding of the texture. The variants call
the packed samplers `getMatrixA` / `getMatrixB` with doubled packed
coordinates (`globalRow * 2` and so on); the packed sampler
(`getPackedSampler3DCS` via `packedUVfrom3D`) halves the last two
coordinates to obtain the texel index, so the composite fetch is the texel
at packed position `(row / 2, col / 2)` of the given batch.
-/

/-- Zero padded element access into a batched matrix of logical size
`rows × cols` per batch (texture reads beyond the logical bounds give 0). -/
def elemPad (A : ℕ → ℕ → ℕ → ℚ) (rows cols : ℕ) (b i j : ℕ) : ℚ :=
  if i < rows ∧ j < cols then A b i j else 0

/-- The texel at packed position `(pr, pc)` of batch `b`: channels r g b a
hold the logical values at `(2pr, 2pc), (2pr, 2pc+1), (2pr+1, 2pc),
(2pr+1, 2pc+1)` (row major within the 2×2 block, spec section 4.2). -/
def texelFetchPacked (A : ℕ → ℕ → ℕ → ℚ) (rows cols b pr pc : ℕ) : Vec4 :=
  ⟨elemPad A rows cols b (2 * pr) (2 * pc),
   elemPad A rows cols b (2 * pr) (2 * pc + 1),
   elemPad A rows cols b (2 * pr + 1) (2 * pc),
   elemPad A rows cols b (2 * pr + 1) (2 * pc + 1)⟩

/-- Model of the packed 3D sampler `getMatrixA(b, row, col)`: resolve the
texel containing logical `(row, col)` by halving both coordinates
(`packedUVfrom3D` computes the texel index from `row / 2` and `col / 2`). -/
def getMatrixPacked (A : ℕ → ℕ → ℕ → ℚ) (rows cols b row col : ℕ) : Vec4 :=
  texelFetchPacked A rows cols b (row / 2) (col / 2)

/-- `aSwizzle = transposeA ? [a.xxyy, a.zzww] : [a.xxzz, a.yyww]`
(identical in all four variants). -/
def aSwizzle (transposeA : Bool) (a : Vec4) : Vec4 × Vec4 :=
  if transposeA then (a.xxyy, a.zzww) else (a.xxzz, a.yyww)

/-- `bSwizzle = transposeB ? [b.xzxz, b.ywyw] : [b.xyxy, b.zwzw]`
(identical in all four variants). -/
def bSwizzle (transposeB : Bool) (b : Vec4) : Vec4 × Vec4 :=
  if transposeB then (b.xzxz, b.ywyw) else (b.xyxy, b.zwzw)

/-- One iteration of the inner accumulation loop, identical in all four
variants: `(aSwizzle[0] * bSwizzle[0]) + (aSwizzle[1] * bSwizzle[1])`. -/
def accTerm (transposeA transposeB : Bool) (a b : Vec4) : Vec4 :=
  (aSwizzle transposeA a).1 * (bSwizzle transposeB b).1 +
    (aSwizzle transposeA a).2 * (bSwizzle transposeB b).2

/-- The texel of operand A that the generated `aSample` string fetches for
packed output row `pr` and packed contraction position `k`:
`tileCol * 2, globalRow * 2` under transpose, `globalRow * 2, tileCol * 2`
otherwise. -/
def aSampleFetch (A : ℕ → ℕ → ℕ → ℚ) (aRows aCols : ℕ) (transposeA : Bool)
    (b pr k : ℕ) : Vec4 :=
  if transposeA then getMatrixPacked A aRows aCols b (k * 2) (pr * 2)
  else getMatrixPacked A aRows aCols b (pr * 2) (k * 2)

/-- The texel of operand B that the generated `bSample` string fetches for
packed contraction position `k` and packed output column `pc`. -/
def bSampleFetch (B : ℕ → ℕ → ℕ → ℚ) (bRows bCols : ℕ) (transposeB : Bool)
    (b k pc : ℕ) : Vec4 :=
  if transposeB then getMatrixPacked B bRows bCols b (pc * 2) (k * 2)
  else getMatrixPacked B bRows bCols b (k * 2) (pc * 2)

/-- Effective (possibly transposed) zero padded operand element:
`A_eff[b, i, j] = A[b, j, i]` when the operand is transposed. -/
def effElem (A : ℕ → ℕ → ℕ → ℚ) (rows cols : ℕ) (transpose : Bool)
    (b i j : ℕ) : ℚ :=
  if transpose then elemPad A rows cols b j i else elemPad A rows cols b i j

/-- The naive triple loop reference product over zero padded operands:
`C[b, i, j] = sum over k < sharedDim of A_eff[b, i, k] * B_eff[b, k, j]`. -/
def matMulRef (A B : ℕ → ℕ → ℕ → ℚ) (aRows aCols bRows bCols : ℕ)
    (transposeA transposeB : Bool) (sharedDim : ℕ) (b i j : ℕ) : ℚ :=
  ∑ k ∈ Finset.range sharedDim,
    effElem A aRows aCols transposeA b i k *
      effElem B bRows bCols transposeB b k j

/-- The 2×2 output block (one packed texel) of the reference product at
packed position `(pr, pc)`. -/
def matMulRefTexel (A B : ℕ → ℕ → ℕ → ℚ) (aRows aCols bRows bCols : ℕ)
    (transposeA transposeB : Bool) (sharedDim : ℕ) (b pr pc : ℕ) : Vec4 :=
  ⟨matMulRef A B aRows aCols bRows bCols transposeA transposeB sharedDim b
      (2 * pr) (2 * pc),
   matMulRef A B aRows aCols bRows bCols transposeA transposeB sharedDim b
      (2 * pr) (2 * pc + 1),
   matMulRef A B aRows aCols bRows bCols transposeA transposeB sharedDim b
      (2 * pr + 1) (2 * pc),
   matMulRef A B aRows aCols bRows bCols transposeA transposeB sharedDim b
      (2 * pr + 1) (2 * pc + 1)⟩

/-- The swizzle pairing of one accumulation iteration computes exactly the
2×2 block product of the fetched texels, for each combination of the
transpose flags. -/
theorem accTerm_fetch (A B : ℕ → ℕ → ℕ → ℚ) (aRows aCols bRows bCols : ℕ)
    (transposeA transposeB : Bool) (b pr k pc : ℕ) :
    accTerm transposeA transposeB
      (aSampleFetch A aRows aCols transposeA b pr k)
      (bSampleFetch B bRows bCols transposeB b k pc) =
    ⟨effElem A aRows aCols transposeA b (2 * pr) (2 * k) *
        effElem B bRows bCols transposeB b (2 * k) (2 * pc) +
      effElem A aRows aCols transposeA b (2 * pr) (2 * k + 1) *
        effElem B bRows bCols transposeB b (2 * k + 1) (2 * pc),
     effElem A aRows aCols transposeA b (2 * pr) (2 * k) *
        effElem B bRows bCols transposeB b (2 * k) (2 * pc + 1) +
      effElem A aRows aCols transposeA b (2 * pr) (2 * k + 1) *
        effElem B bRows bCols transposeB b (2 * k + 1) (2 * pc + 1),
     effElem A aRows aCols transposeA b (2 * pr + 1) (2 * k) *
        effElem B bRows bCols transposeB b (2 * k) (2 * pc) +
      effElem A aRows aCols transposeA b (2 * pr + 1) (2 * k + 1) *
        effElem B bRows bCols transposeB b (2 * k + 1) (2 * pc),
     effElem A aRows aCols transposeA b (2 * pr + 1) (2 * k) *
        effElem B bRows bCols transposeB b (2 * k) (2 * pc + 1) +
      effElem A aRows aCols transposeA b (2 * pr + 1) (2 * k + 1) *
        effElem B bRows bCols transposeB b (2 * k + 1) (2 * pc + 1)⟩ := by
  have h2 : 0 < 2 := by omega
  cases transposeA <;> cases transposeB <;>
    simp [accTerm, aSwizzle, bSwizzle, aSampleFetch, bSampleFetch,
      getMatrixPacked, texelFetchPacked, effElem, Nat.mul_div_cancel _ h2,
      Vec4.xxzz, Vec4.yyww, Vec4.xxyy, Vec4.zzww, Vec4.xyxy, Vec4.zwzw,
      Vec4.xzxz, Vec4.ywyw, Vec4.mul_def, Vec4.add_def]

theorem sum_range_two_mul (g : ℕ → ℚ) (n : ℕ) :
    ∑ j ∈ Finset.range (2 * n), g j =
      ∑ k ∈ Finset.range n, (g (2 * k) + g (2 * k + 1)) := by
  induction n with
  | zero => simp
  | succ m ih =>
    have h1 : 2 * (m + 1) = (2 * m) + 1 + 1 := by omega
    rw [h1, Finset.sum_range_succ, Finset.sum_range_succ, ih,
      Finset.sum_range_succ]
    ring

theorem effElem_zero_of_ge (A : ℕ → ℕ → ℕ → ℚ) {rows cols : ℕ}
    {transpose : Bool} {sharedDim : ℕ}
    (h : (if transpose then rows else cols) = sharedDim)
    {j : ℕ} (hj : sharedDim ≤ j) (b i : ℕ) :
    effElem A rows cols transpose b i j = 0 := by
  cases transpose <;> simp only [Bool.false_eq_true, if_true, if_false] at h <;>
    simp [effElem, elemPad] <;> omega

/-- Summing the swizzle block products over the `S` packed contraction
positions yields the 2×2 block of the naive reference product. -/
theorem sum_accTerm_fetch (A B : ℕ → ℕ → ℕ → ℚ)
    (aRows aCols bRows bCols : ℕ) (transposeA transposeB : Bool)
    (sharedDim S : ℕ) (hS : S = (sharedDim + 1) / 2)
    (hA : (if transposeA then aRows else aCols) = sharedDim)
    (hB : (if transposeB then bCols else bRows) = sharedDim)
    (b pr pc : ℕ) :
    (∑ k ∈ Finset.range S,
      accTerm transposeA transposeB
        (aSampleFetch A aRows aCols transposeA b pr k)
        (bSampleFetch B bRows bCols transposeB b k pc)) =
    matMulRefTexel A B aRows aCols bRows bCols transposeA transposeB
      sharedDim b pr pc := by
  have hsd2S : sharedDim ≤ 2 * S := by omega
  have key : ∀ i j : ℕ,
      (∑ k ∈ Finset.range S,
        (effElem A aRows aCols transposeA b i (2 * k) *
            effElem B bRows bCols transposeB b (2 * k) j +
          effElem A aRows aCols transposeA b i (2 * k + 1) *
            effElem B bRows bCols transposeB b (2 * k + 1) j)) =
      matMulRef A B aRows aCols bRows bCols transposeA transposeB
        sharedDim b i j := by
    intro i j
    rw [← sum_range_two_mul
      (fun m => effElem A aRows aCols transposeA b i m *
        effElem B bRows bCols transposeB b m j) S]
    unfold matMulRef
    refine (Finset.sum_subset ?_ ?_).symm
    · exact Finset.range_subset.mpr hsd2S
    · intro m _ hm
      rw [Finset.mem_range, Nat.not_lt] at hm
      rw [effElem_zero_of_ge A hA hm, zero_mul]
  calc
    (∑ k ∈ Finset.range S,
      accTerm transposeA transposeB
        (aSampleFetch A aRows aCols transposeA b pr k)
        (bSampleFetch B bRows bCols transposeB b k pc))
      = ∑ k ∈ Finset.range S,
        (⟨effElem A aRows aCols transposeA b (2 * pr) (2 * k) *
            effElem B bRows bCols transposeB b (2 * k) (2 * pc) +
          effElem A aRows aCols transposeA b (2 * pr) (2 * k + 1) *
            effElem B bRows bCols transposeB b (2 * k + 1) (2 * pc),
         effElem A aRows aCols transposeA b (2 * pr) (2 * k) *
            effElem B bRows bCols transposeB b (2 * k) (2 * pc + 1) +
          effElem A aRows aCols transposeA b (2 * pr) (2 * k + 1) *
            effElem B bRows bCols transposeB b (2 * k + 1) (2 * pc + 1),
         effElem A aRows aCols transposeA b (2 * pr + 1) (2 * k) *
            effElem B bRows bCols transposeB b (2 * k) (2 * pc) +
          effElem A aRows aCols transposeA b (2 * pr + 1) (2 * k + 1) *
            effElem B bRows bCols transposeB b (2 * k + 1) (2 * pc),
         effElem A aRows aCols transposeA b (2 * pr + 1) (2 * k) *
            effElem B bRows bCols transposeB b (2 * k) (2 * pc + 1) +
          effElem A aRows aCols transposeA b (2 * pr + 1) (2 * k + 1) *
            effElem B bRows bCols transposeB b (2 * k + 1) (2 * pc + 1)⟩ :
          Vec4) := by
        refine Finset.sum_congr rfl ?_
        intro k _
        exact accTerm_fetch A B aRows aCols bRows bCols transposeA transposeB
          b pr k pc
    _ = matMulRefTexel A B aRows aCols bRows bCols transposeA transposeB
          sharedDim b pr pc := by
        rw [Vec4.sum_mk]
        unfold matMulRefTexel
        rw [key (2 * pr) (2 * pc), key (2 * pr) (2 * pc + 1),
          key (2 * pr + 1) (2 * pc), key (2 * pr + 1) (2 * pc + 1)]

/-!
## MatMulPackedProgramCS (mulmat_packed_gpu_cs.ts)

Workgroup layout `localGroupSize = [TS, TS]`; thread `(row, col)` (with
`row = gl_LocalInvocationID.y`, `col = gl_LocalInvocationID.x`) of
workgroup `(wgY, wgX)` has `globalRow = TS * wgY + row`,
`globalCol = TS * wgX + col`. In the load phase of tile `t` exactly thread
`(r, c)` writes the cell `Asub[r][c] = getMatrixA(rc.x, aSample)` with
`tileCol = TS * t + c`, and `Bsub[r][c] = getMatrixB(rc.x, bSample)` with
`tileRow = TS * t + r`; the barrier then makes all cells visible, so the
shared arrays are the total functions below.
-/

/-- Contents of `Asub[r][c]` after the load phase of tile `t` in
MatMulPackedProgramCS. -/
def matMulCS_Asub (A : ℕ → ℕ → ℕ → ℚ) (aRows aCols : ℕ) (transposeA : Bool)
    (TS batch wgY t r c : ℕ) : Vec4 :=
  aSampleFetch A aRows aCols transposeA batch (TS * wgY + r) (TS * t + c)

/-- Contents of `Bsub[r][c]` after the load phase of tile `t` in
MatMulPackedProgramCS. -/
def matMulCS_Bsub (B : ℕ → ℕ → ℕ → ℚ) (bRows bCols : ℕ) (transposeB : Bool)
    (TS batch wgX t r c : ℕ) : Vec4 :=
  bSampleFetch B bRows bCols transposeB batch (TS * t + r) (TS * wgX + c)

/-- The accumulator `result` computed by thread `(row, col)` of workgroup
`(wgY, wgX)` in MatMulPackedProgramCS: over all tiles `t` and inner
positions `i < sizeTS`, accumulate the swizzle products of
`Asub[row][i]` and `Bsub[i][col]`.  `S` is the interpolated
`sharedDimensionPacked` constant. -/
def matMulCS_result (A B : ℕ → ℕ → ℕ → ℚ) (aRows aCols bRows bCols : ℕ)
    (transposeA transposeB : Bool) (TS S batch wgY wgX row col : ℕ) : Vec4 :=
  ∑ t ∈ Finset.range (numTiles TS S),
    ∑ i ∈ Finset.range (sizeTS TS S t),
      accTerm transposeA transposeB
        (matMulCS_Asub A aRows aCols transposeA TS batch wgY t row i)
        (matMulCS_Bsub B bRows bCols transposeB TS batch wgX t i col)

theorem matMulCS_result_eq_ref (A B : ℕ → ℕ → ℕ → ℚ)
    (aRows aCols bRows bCols : ℕ) (transposeA transposeB : Bool)
    (TS S sharedDim batch wgY wgX row col : ℕ) (hTS : 0 < TS)
    (hS : S = (sharedDim + 1) / 2)
    (hA : (if transposeA then aRows else aCols) = sharedDim)
    (hB : (if transposeB then bCols else bRows) = sharedDim) :
    matMulCS_result A B aRows aCols bRows bCols transposeA transposeB
      TS S batch wgY wgX row col =
    matMulRefTexel A B aRows aCols bRows bCols transposeA transposeB
      sharedDim batch (TS * wgY + row) (TS * wgX + col) := by
  unfold matMulCS_result matMulCS_Asub matMulCS_Bsub
  rw [tile_cover_sum TS S hTS
    (fun k => accTerm transposeA transposeB
      (aSampleFetch A aRows aCols transposeA batch (TS * wgY + row) k)
      (bSampleFetch B bRows bCols transposeB batch k (TS * wgX + col)))]
  exact sum_accTerm_fetch A B aRows aCols bRows bCols transposeA transposeB
    sharedDim S hS hA hB batch (TS * wgY + row) (TS * wgX + col)

/-!
## MatMulPackedProgramCSV2 (mulmat_packed_gpu_cs_v2.ts)

Workgroup layout `localGroupSize = [TS, RTS]` with `RTS = TS / WPT`;
thread `(row, col)` has `row < RTS`, `col < TS`, `globalRow = TS * wgY +
row`, `globalCol = TS * wgX + col`. In the load phase of tile `t` thread
`(row, col)` writes, for each `w < WPT`, the cells
`Asub[row + w*RTS][col]` and `Bsub[row + w*RTS][col]`; a cell `(r, c)` is
therefore written (by the unique decomposition `r = (r % RTS) + (r /
RTS)*RTS`) exactly when `r < WPT * RTS`, and holds the sample at packed row
`TS * wgY + r` (for A) respectively packed contraction position
`TS * t + r` (for B). Unwritten cells hold arbitrary garbage, modelled as
`none` and read through an arbitrary garbage valuation. -/

/-- Contents of `Asub[r][c]` after the load phase of tile `t` in
MatMulPackedProgramCSV2 (`none` when no thread wrote the cell). -/
def matMulCSV2_Asub (A : ℕ → ℕ → ℕ → ℚ) (aRows aCols : ℕ)
    (transposeA : Bool) (TS WPT RTS batch wgY t r c : ℕ) : Option Vec4 :=
  if r < WPT * RTS then
    some (aSampleFetch A aRows aCols transposeA batch (TS * wgY + r) (TS * t + c))
  else none

/-- Contents of `Bsub[r][c]` after the load phase of tile `t` in
MatMulPackedProgramCSV2. -/
def matMulCSV2_Bsub (B : ℕ → ℕ → ℕ → ℚ) (bRows bCols : ℕ)
    (transposeB : Bool) (TS WPT RTS batch wgX t r c : ℕ) : Option Vec4 :=
  if r < WPT * RTS then
    some (bSampleFetch B bRows bCols transposeB batch (TS * t + r) (TS * wgX + c))
  else none

/-- The accumulator `result[w]` computed by thread `(row, col)` of
workgroup `(wgY, wgX)` in MatMulPackedProgramCSV2: reads
`Asub[row + w*RTS][i]` and `Bsub[i][col]`; `gA`, `gB` are the arbitrary
contents of shared memory cells the load phase did not write. -/
def matMulCSV2_result (A B : ℕ → ℕ → ℕ → ℚ) (aRows aCols bRows bCols : ℕ)
    (transposeA transposeB : Bool) (TS WPT RTS S batch wgY wgX row col w : ℕ)
    (gA gB : ℕ → ℕ → ℕ → Vec4) : Vec4 :=
  ∑ t ∈ Finset.range (numTiles TS S),
    ∑ i ∈ Finset.range (sizeTS TS S t),
      accTerm transposeA transposeB
        ((matMulCSV2_Asub A aRows aCols transposeA TS WPT RTS batch wgY t
            (row + w * RTS) i).getD (gA t (row + w * RTS) i))
        ((matMulCSV2_Bsub B bRows bCols transposeB TS WPT RTS batch wgX t
            i col).getD (gB t i col))

theorem matMulCSV2_result_eq_ref (A B : ℕ → ℕ → ℕ → ℚ)
    (aRows aCols bRows bCols : ℕ) (transposeA transposeB : Bool)
    (TS WPT RTS S sharedDim batch wgY wgX row col w : ℕ)
    (gA gB : ℕ → ℕ → ℕ → Vec4)
    (hTS : 0 < TS) (hRTS : WPT * RTS = TS)
    (hrow : row < RTS) (hw : w < WPT)
    (hS : S = (sharedDim + 1) / 2)
    (hA : (if transposeA then aRows else aCols) = sharedDim)
    (hB : (if transposeB then bCols else bRows) = sharedDim) :
    matMulCSV2_result A B aRows aCols bRows bCols transposeA transposeB
      TS WPT RTS S batch wgY wgX row col w gA gB =
    matMulRefTexel A B aRows aCols bRows bCols transposeA transposeB
      sharedDim batch (TS * wgY + (row + w * RTS)) (TS * wgX + col) := by
  have hrw : row + w * RTS < WPT * RTS := by
    have : (w + 1) * RTS ≤ WPT * RTS := Nat.mul_le_mul_right _ (by omega)
    have : row + w * RTS < (w + 1) * RTS := by
      calc row + w * RTS < RTS + w * RTS := by omega
      _ = (w + 1) * RTS := by ring
    omega
  have hstep : matMulCSV2_result A B aRows aCols bRows bCols transposeA
      transposeB TS WPT RTS S batch wgY wgX row col w gA gB =
      ∑ t ∈ Finset.range (numTiles TS S),
        ∑ i ∈ Finset.range (sizeTS TS S t),
          accTerm transposeA transposeB
            (aSampleFetch A aRows aCols transposeA batch
              (TS * wgY + (row + w * RTS)) (TS * t + i))
            (bSampleFetch B bRows bCols transposeB batch
              (TS * t + i) (TS * wgX + col)) := by
    unfold matMulCSV2_result
    refine Finset.sum_congr rfl ?_
    intro t _
    refine Finset.sum_congr rfl ?_
    intro i hi
    rw [Finset.mem_range] at hi
    have hiTS : i < WPT * RTS := by
      have := @sizeTS_le TS S t hTS
      omega
    rw [matMulCSV2_Asub, matMulCSV2_Bsub, if_pos hrw, if_pos hiTS,
      Option.getD_some, Option.getD_some]
  rw [hstep, tile_cover_sum TS S hTS
    (fun k => accTerm transposeA transposeB
      (aSampleFetch A aRows aCols transposeA batch
        (TS * wgY + (row + w * RTS)) k)
      (bSampleFetch B bRows bCols transposeB batch k (TS * wgX + col)))]
  exact sum_accTerm_fetch A B aRows aCols bRows bCols transposeA transposeB
    sharedDim S hS hA hB batch (TS * wgY + (row + w * RTS)) (TS * wgX + col)

/-!
## MatMulPackedProgramCSV3 (work per thread in both output dimensions)

Workgroup layout `localGroupSize = [RTS, RTS]` with `RTS = TS / WPT`;
thread `(row, col)` has `row, col < RTS`, `globalRow = TS * wgY + row`,
`globalCol = TS * wgX + col`. In the load phase of tile `t` thread
`(row, col)` writes, for `innerRow, innerCol < WPT`, the cells
`Asub[row + innerRow*RTS][col + innerCol*RTS]` and the matching Bsub
cells; a cell `(r, c)` is written exactly when `r < WPT * RTS` and
`c < WPT * RTS`, and holds the sample at
`(TS * wgY + r, TS * t + c)` (A) resp. `(TS * t + r, TS * wgX + c)` (B). -/

/-- Contents of `Asub[r][c]` after the load phase of tile `t` in
MatMulPackedProgramCSV3. -/
def matMulCSV3_Asub (A : ℕ → ℕ → ℕ → ℚ) (aRows aCols : ℕ)
    (transposeA : Bool) (TS WPT RTS batch wgY t r c : ℕ) : Option Vec4 :=
  if r < WPT * RTS ∧ c < WPT * RTS then
    some (aSampleFetch A aRows aCols transposeA batch (TS * wgY + r) (TS * t + c))
  else none

/-- Contents of `Bsub[r][c]` after the load phase of tile `t` in
MatMulPackedProgramCSV3. -/
def matMulCSV3_Bsub (B : ℕ → ℕ → ℕ → ℚ) (bRows bCols : ℕ)
    (transposeB : Bool) (TS WPT RTS batch wgX t r c : ℕ) : Option Vec4 :=
  if r < WPT * RTS ∧ c < WPT * RTS then
    some (bSampleFetch B bRows bCols transposeB batch (TS * t + r) (TS * wgX + c))
  else none

/-- The accumulator `result[innerRow][innerCol]` computed by thread
`(row, col)` of workgroup `(wgY, wgX)` in MatMulPackedProgramCSV3
(`Breg[innerCol]` is `Bsub[k][col + innerCol * RTS]`). -/
def matMulCSV3_result (A B : ℕ → ℕ → ℕ → ℚ) (aRows aCols bRows bCols : ℕ)
    (transposeA transposeB : Bool)
    (TS WPT RTS S batch wgY wgX row col innerRow innerCol : ℕ)
    (gA gB : ℕ → ℕ → ℕ → Vec4) : Vec4 :=
  ∑ t ∈ Finset.range (numTiles TS S),
    ∑ k ∈ Finset.range (sizeTS TS S t),
      accTerm transposeA transposeB
        ((matMulCSV3_Asub A aRows aCols transposeA TS WPT RTS batch wgY t
            (row + innerRow * RTS) k).getD (gA t (row + innerRow * RTS) k))
        ((matMulCSV3_Bsub B bRows bCols transposeB TS WPT RTS batch wgX t
            k (col + innerCol * RTS)).getD (gB t k (col + innerCol * RTS)))

theorem matMulCSV3_result_eq_ref (A B : ℕ → ℕ → ℕ → ℚ)
    (aRows aCols bRows bCols : ℕ) (transposeA transposeB : Bool)
    (TS WPT RTS S sharedDim batch wgY wgX row col innerRow innerCol : ℕ)
    (gA gB : ℕ → ℕ → ℕ → Vec4)
    (hTS : 0 < TS) (hRTS : WPT * RTS = TS)
    (hrow : row < RTS) (hcol : col < RTS)
    (hiR : innerRow < WPT) (hiC : innerCol < WPT)
    (hS : S = (sharedDim + 1) / 2)
    (hA : (if transposeA then aRows else aCols) = sharedDim)
    (hB : (if transposeB then bCols else bRows) = sharedDim) :
    matMulCSV3_result A B aRows aCols bRows bCols transposeA transposeB
      TS WPT RTS S batch wgY wgX row col innerRow innerCol gA gB =
    matMulRefTexel A B aRows aCols bRows bCols transposeA transposeB
      sharedDim batch (TS * wgY + (row + innerRow * RTS))
      (TS * wgX + (col + innerCol * RTS)) := by
  have hbnd : ∀ a i : ℕ, a < RTS → i < WPT → a + i * RTS < WPT * RTS := by
    intro a i ha hi
    have h1 : (i + 1) * RTS ≤ WPT * RTS := Nat.mul_le_mul_right _ (by omega)
    have h2 : a + i * RTS < (i + 1) * RTS := by
      calc a + i * RTS < RTS + i * RTS := by omega
      _ = (i + 1) * RTS := by ring
    omega
  have hrw : row + innerRow * RTS < WPT * RTS := hbnd _ _ hrow hiR
  have hcw : col + innerCol * RTS < WPT * RTS := hbnd _ _ hcol hiC
  have hstep : matMulCSV3_result A B aRows aCols bRows bCols transposeA
      transposeB TS WPT RTS S batch wgY wgX row col innerRow innerCol gA gB =
      ∑ t ∈ Finset.range (numTiles TS S),
        ∑ k ∈ Finset.range (sizeTS TS S t),
          accTerm transposeA transposeB
            (aSampleFetch A aRows aCols transposeA batch
              (TS * wgY + (row + innerRow * RTS)) (TS * t + k))
            (bSampleFetch B bRows bCols transposeB batch
              (TS * t + k) (TS * wgX + (col + innerCol * RTS))) := by
    unfold matMulCSV3_result
    refine Finset.sum_congr rfl ?_
    intro t _
    refine Finset.sum_congr rfl ?_
    intro k hk
    rw [Finset.mem_range] at hk
    have hkTS : k < WPT * RTS := by
      have := @sizeTS_le TS S t hTS
      omega
    rw [matMulCSV3_Asub, matMulCSV3_Bsub, if_pos ⟨hrw, hkTS⟩,
      if_pos ⟨hkTS, hcw⟩, Option.getD_some, Option.getD_some]
  rw [hstep, tile_cover_sum TS S hTS
    (fun m => accTerm transposeA transposeB
      (aSampleFetch A aRows aCols transposeA batch
        (TS * wgY + (row + innerRow * RTS)) m)
      (bSampleFetch B bRows bCols transposeB batch m
        (TS * wgX + (col + innerCol * RTS))))]
  exact sum_accTerm_fetch A B aRows aCols bRows bCols transposeA transposeB
    sharedDim S hS hA hB batch (TS * wgY + (row + innerRow * RTS))
    (TS * wgX + (col + innerCol * RTS))

/-!
## MatMulPackedProgramCSV4 (blocked: independent shared-dimension tile TSK)

`[TSM, TSN] = [TS, TS]`, `[WPTM, WPTN] = [WPT, WPT]`,
`LPTA = TSK * WPTM * WPTN / TSN`, `[RTSM, RTSN] = [TSM / WPTM, TSN / WPTN]`
(so both are `RTS = TS / WPT` below); `localGroupSize = [RTSN, RTSM]`,
`offsetM = TSM * wgY`, `offsetN = TSN * wgX`. In the load phase of tile
`t`, loop index `i < LPTA` of thread `tid = tidm * RTSN + tidn` computes
`id = i * RTSN * RTSM + tid`, `row = id / TSK`, `col = imod(id, TSK)` and
writes `Asub[row][col]` (sample at `(offsetM + row, TSK * t + col)`) and
`Bsub[col][row]` (sample at `(TSK * t + col, offsetN + row)`). As `(i,
tid)` ranges over `LPTA × (RTSM * RTSN)` values, `id` ranges over exactly
`[0, LPTA * RTSN * RTSM)`; hence `Asub[r][c]` (with `c < TSK`) is written
iff `r * TSK + c < LPTA * (RTS * RTS)`, and `Bsub[k][n]` iff
`n * TSK + k < LPTA * (RTS * RTS)`. -/

/-- Contents of `Asub[r][c]` after the load phase of tile `t` in
MatMulPackedProgramCSV4. -/
def matMulCSV4_Asub (A : ℕ → ℕ → ℕ → ℚ) (aRows aCols : ℕ)
    (transposeA : Bool) (TS TSK LPTA RTS batch wgY t r c : ℕ) : Option Vec4 :=
  if c < TSK ∧ r * TSK + c < LPTA * (RTS * RTS) then
    some (aSampleFetch A aRows aCols transposeA batch (TS * wgY + r) (TSK * t + c))
  else none

/-- Contents of `Bsub[k][n]` after the load phase of tile `t` in
MatMulPackedProgramCSV4 (B is stored transposed: `Bsub[col][row]`). -/
def matMulCSV4_Bsub (B : ℕ → ℕ → ℕ → ℚ) (bRows bCols : ℕ)
    (transposeB : Bool) (TS TSK LPTA RTS batch wgX t k n : ℕ) : Option Vec4 :=
  if k < TSK ∧ n * TSK + k < LPTA * (RTS * RTS) then
    some (bSampleFetch B bRows bCols transposeB batch (TSK * t + k) (TS * wgX + n))
  else none

/-- The accumulator `acc[wm][wn]` computed by thread `(tidn, tidm)` of
workgroup `(wgY, wgX)` in MatMulPackedProgramCSV4: reads
`Asub[tidm + wm * RTSM][k]` and `Breg[wn] = Bsub[k][tidn + wn * RTSN]`. -/
def matMulCSV4_result (A B : ℕ → ℕ → ℕ → ℚ) (aRows aCols bRows bCols : ℕ)
    (transposeA transposeB : Bool)
    (TS TSK LPTA RTS S batch wgY wgX tidm tidn wm wn : ℕ)
    (gA gB : ℕ → ℕ → ℕ → Vec4) : Vec4 :=
  ∑ t ∈ Finset.range (numTiles TSK S),
    ∑ k ∈ Finset.range (sizeTS TSK S t),
      accTerm transposeA transposeB
        ((matMulCSV4_Asub A aRows aCols transposeA TS TSK LPTA RTS batch wgY
            t (tidm + wm * RTS) k).getD (gA t (tidm + wm * RTS) k))
        ((matMulCSV4_Bsub B bRows bCols transposeB TS TSK LPTA RTS batch wgX
            t k (tidn + wn * RTS)).getD (gB t k (tidn + wn * RTS)))

theorem matMulCSV4_result_eq_ref (A B : ℕ → ℕ → ℕ → ℚ)
    (aRows aCols bRows bCols : ℕ) (transposeA transposeB : Bool)
    (TS TSK LPTA RTS WPT S sharedDim batch wgY wgX tidm tidn wm wn : ℕ)
    (gA gB : ℕ → ℕ → ℕ → Vec4)
    (hTS : 0 < TS) (hTSK : 0 < TSK) (hWPT0 : 0 < WPT)
    (hRTS : WPT * RTS = TS) (hLPTA : LPTA * TS = TSK * (WPT * WPT))
    (htidm : tidm < RTS) (htidn : tidn < RTS)
    (hwm : wm < WPT) (hwn : wn < WPT)
    (hS : S = (sharedDim + 1) / 2)
    (hA : (if transposeA then aRows else aCols) = sharedDim)
    (hB : (if transposeB then bCols else bRows) = sharedDim) :
    matMulCSV4_result A B aRows aCols bRows bCols transposeA transposeB
      TS TSK LPTA RTS S batch wgY wgX tidm tidn wm wn gA gB =
    matMulRefTexel A B aRows aCols bRows bCols transposeA transposeB
      sharedDim batch (TS * wgY + (tidm + wm * RTS))
      (TS * wgX + (tidn + wn * RTS)) := by
  have hcov : LPTA * (RTS * RTS) = TSK * TS := by
    have hWPTsq : 0 < WPT * WPT := Nat.mul_pos hWPT0 hWPT0
    refine Nat.eq_of_mul_eq_mul_right hWPTsq ?_
    calc LPTA * (RTS * RTS) * (WPT * WPT)
        = LPTA * ((WPT * RTS) * (WPT * RTS)) := by ring
      _ = LPTA * (TS * TS) := by rw [hRTS]
      _ = (LPTA * TS) * TS := by ring
      _ = TSK * (WPT * WPT) * TS := by rw [hLPTA]
      _ = TSK * TS * (WPT * WPT) := by ring
  have hbnd : ∀ a i : ℕ, a < RTS → i < WPT → a + i * RTS < TS := by
    intro a i ha hi
    have h1 : (i + 1) * RTS ≤ WPT * RTS := Nat.mul_le_mul_right _ (by omega)
    have h2 : a + i * RTS < (i + 1) * RTS := by
      calc a + i * RTS < RTS + i * RTS := by omega
      _ = (i + 1) * RTS := by ring
    omega
  have hrw : tidm + wm * RTS < TS := hbnd _ _ htidm hwm
  have hcw : tidn + wn * RTS < TS := hbnd _ _ htidn hwn
  have hcell : ∀ r k : ℕ, r < TS → k < TSK →
      r * TSK + k < LPTA * (RTS * RTS) := by
    intro r k hr hk
    rw [hcov]
    have h1 : (r + 1) * TSK ≤ TS * TSK := Nat.mul_le_mul_right _ (by omega)
    have h2 : r * TSK + k < (r + 1) * TSK := by
      calc r * TSK + k < r * TSK + TSK := by omega
      _ = (r + 1) * TSK := by ring
    have h3 : TS * TSK = TSK * TS := by ring
    omega
  have hstep : matMulCSV4_result A B aRows aCols bRows bCols transposeA
      transposeB TS TSK LPTA RTS S batch wgY wgX tidm tidn wm wn gA gB =
      ∑ t ∈ Finset.range (numTiles TSK S),
        ∑ k ∈ Finset.range (sizeTS TSK S t),
          accTerm transposeA transposeB
            (aSampleFetch A aRows aCols transposeA batch
              (TS * wgY + (tidm + wm * RTS)) (TSK * t + k))
            (bSampleFetch B bRows bCols transposeB batch
              (TSK * t + k) (TS * wgX + (tidn + wn * RTS))) := by
    unfold matMulCSV4_result
    refine Finset.sum_congr rfl ?_
    intro t _
    refine Finset.sum_congr rfl ?_
    intro k hk
    rw [Finset.mem_range] at hk
    have hkTSK : k < TSK := by
      have := @sizeTS_le TSK S t hTSK
      omega
    rw [matMulCSV4_Asub, matMulCSV4_Bsub,
      if_pos ⟨hkTSK, hcell _ _ hrw hkTSK⟩,
      if_pos ⟨hkTSK, hcell _ _ hcw hkTSK⟩,
      Option.getD_some, Option.getD_some]
  rw [hstep, tile_cover_sum TSK S hTSK
    (fun m => accTerm transposeA transposeB
      (aSampleFetch A aRows aCols transposeA batch
        (TS * wgY + (tidm + wm * RTS)) m)
      (bSampleFetch B bRows bCols transposeB batch m
        (TS * wgX + (tidn + wn * RTS))))]
  exact sum_accTerm_fetch A B aRows aCols bRows bCols transposeA transposeB
    sharedDim S hS hA hB batch (TS * wgY + (tidm + wm * RTS))
    (TS * wgX + (tidn + wn * RTS))

/-- On positions within the true (unpadded) bounds, the zero padded
reference equals the naive triple loop over the raw inputs. -/
theorem matMulRef_eq_raw (A B : ℕ → ℕ → ℕ → ℚ)
    (aRows aCols bRows bCols : ℕ) (transposeA transposeB : Bool)
    (sharedDim : ℕ)
    (hA : (if transposeA then aRows else aCols) = sharedDim)
    (hB : (if transposeB then bCols else bRows) = sharedDim)
    (batch i j : ℕ)
    (hi : i < if transposeA then aCols else aRows)
    (hj : j < if transposeB then bRows else bCols) :
    matMulRef A B aRows aCols bRows bCols transposeA transposeB sharedDim
      batch i j =
    ∑ k ∈ Finset.range sharedDim,
      (if transposeA then A batch k i else A batch i k) *
        (if transposeB then B batch j k else B batch k j) := by
  unfold matMulRef
  refine Finset.sum_congr rfl ?_
  intro k hk
  rw [Finset.mem_range] at hk
  cases transposeA <;> cases transposeB <;>
    simp only [Bool.false_eq_true, if_true, if_false] at hA hB hi hj ⊢ <;>
    rw [effElem, effElem] <;>
    simp only [Bool.false_eq_true, if_true, if_false] <;>
    rw [elemPad, elemPad, if_pos (by omega), if_pos (by omega)]

/-- Claim C1: for every fixed operator shape, transpose flags, and tiling
configuration (tile sizes positive, the work per thread and blocked
configurations integral as the generators assume), the four matmul tiling
variants compute the same function: the accumulator each variant stores
for an output texel equals the corresponding 2×2 block of the naive triple
loop reference product C = A times B over the zero padded operands, and on
in bounds positions that reference is the naive triple loop over the raw
inputs. The tile size TS (TSK for the blocked variant) is arbitrary, so
both a size that divides the packed shared dimension and one that leaves a
remainder tile are covered. -/
theorem claim_C1_matmul_tiling_equivalence
    (A B : ℕ → ℕ → ℕ → ℚ) (aRows aCols bRows bCols : ℕ)
    (transposeA transposeB : Bool)
    (TS TSK LPTA RTS WPT S sharedDim batch wgY wgX : ℕ)
    (row1 col1 row2 col2 w2 row3 col3 iR3 iC3 tidm tidn wm wn : ℕ)
    (gA2 gB2 gA3 gB3 gA4 gB4 : ℕ → ℕ → ℕ → Vec4)
    (hTS : 0 < TS) (hTSK : 0 < TSK) (hWPT0 : 0 < WPT)
    (hRTS : WPT * RTS = TS) (hLPTA : LPTA * TS = TSK * (WPT * WPT))
    (hrow2 : row2 < RTS) (hw2 : w2 < WPT)
    (hrow3 : row3 < RTS) (hcol3 : col3 < RTS)
    (hiR3 : iR3 < WPT) (hiC3 : iC3 < WPT)
    (htidm : tidm < RTS) (htidn : tidn < RTS)
    (hwm : wm < WPT) (hwn : wn < WPT)
    (hS : S = (sharedDim + 1) / 2)
    (hA : (if transposeA then aRows else aCols) = sharedDim)
    (hB : (if transposeB then bCols else bRows) = sharedDim) :
    (matMulCS_result A B aRows aCols bRows bCols transposeA transposeB
        TS S batch wgY wgX row1 col1 =
      matMulRefTexel A B aRows aCols bRows bCols transposeA transposeB
        sharedDim batch (TS * wgY + row1) (TS * wgX + col1)) ∧
    (matMulCSV2_result A B aRows aCols bRows bCols transposeA transposeB
        TS WPT RTS S batch wgY wgX row2 col2 w2 gA2 gB2 =
      matMulRefTexel A B aRows aCols bRows bCols transposeA transposeB
        sharedDim batch (TS * wgY + (row2 + w2 * RTS)) (TS * wgX + col2)) ∧
    (matMulCSV3_result A B aRows aCols bRows bCols transposeA transposeB
        TS WPT RTS S batch wgY wgX row3 col3 iR3 iC3 gA3 gB3 =
      matMulRefTexel A B aRows aCols bRows bCols transposeA transposeB
        sharedDim batch (TS * wgY + (row3 + iR3 * RTS))
        (TS * wgX + (col3 + iC3 * RTS))) ∧
    (matMulCSV4_result A B aRows aCols bRows bCols transposeA transposeB
        TS TSK LPTA RTS S batch wgY wgX tidm tidn wm wn gA4 gB4 =
      matMulRefTexel A B aRows aCols bRows bCols transposeA transposeB
        sharedDim batch (TS * wgY + (tidm + wm * RTS))
        (TS * wgX + (tidn + wn * RTS))) ∧
    (∀ i j : ℕ, i < (if transposeA then aCols else aRows) →
      j < (if transposeB then bRows else bCols) →
      matMulRef A B aRows aCols bRows bCols transposeA transposeB sharedDim
        batch i j =
      ∑ k ∈ Finset.range sharedDim,
        (if transposeA then A batch k i else A batch i k) *
          (if transposeB then B batch j k else B batch k j)) := by
  refine ⟨?_, ?_, ?_, ?_, ?_⟩
  · exact matMulCS_result_eq_ref A B aRows aCols bRows bCols transposeA
      transposeB TS S sharedDim batch wgY wgX row1 col1 hTS hS hA hB
  · exact matMulCSV2_result_eq_ref A B aRows aCols bRows bCols transposeA
      transposeB TS WPT RTS S sharedDim batch wgY wgX row2 col2 w2 gA2 gB2
      hTS hRTS hrow2 hw2 hS hA hB
  · exact matMulCSV3_result_eq_ref A B aRows aCols bRows bCols transposeA
      transposeB TS WPT RTS S sharedDim batch wgY wgX row3 col3 iR3 iC3
      gA3 gB3 hTS hRTS hrow3 hcol3 hiR3 hiC3 hS hA hB
  · exact matMulCSV4_result_eq_ref A B aRows aCols bRows bCols transposeA
      transposeB TS TSK LPTA RTS WPT S sharedDim batch wgY wgX tidm tidn
      wm wn gA4 gB4 hTS hTSK hWPT0 hRTS hLPTA htidm htidn hwm hwn hS hA hB
  · intro i j hi hj
    exact matMulRef_eq_raw A B aRows aCols bRows bCols transposeA transposeB
      sharedDim hA hB batch i j hi hj

/-- Concrete matrix entries used by the witnesses below. -/
def witMatA : ℕ → ℕ → ℕ → ℚ := fun b i j => (b + 7 * i + 3 * j + 1 : ℚ)

/-- Concrete matrix entries used by the witnesses below. -/
def witMatB : ℕ → ℕ → ℕ → ℚ := fun b i j => (2 * b + i + 5 * j + 2 : ℚ)

/-- Arbitrary garbage contents for unwritten shared memory cells. -/
def witGarbage : ℕ → ℕ → ℕ → Vec4 := fun _ _ _ => ⟨37, 41, 43, 47⟩

theorem claim_C1_matmul_tiling_equivalence_witness :
    (0 < 2 ∧ 3 = (5 + 1) / 2 ∧
      matMulCS_result witMatA witMatB 5 2 5 4 true false 2 3 0 0 0 1 1 =
        matMulRefTexel witMatA witMatB 5 2 5 4 true false 5 0 1 1) ∧
    (matMulCS_result witMatA witMatB 5 2 5 4 true false 3 3 0 0 0 1 1 =
      matMulRefTexel witMatA witMatB 5 2 5 4 true false 5 0 1 1) := by
  have h1 := claim_C1_matmul_tiling_equivalence witMatA witMatB 5 2 5 4
    true false 2 2 4 1 2 3 5 0 0 0 1 1 0 0 1 0 0 1 0 0 0 1 0
    witGarbage witGarbage witGarbage witGarbage witGarbage witGarbage
    (by decide) (by decide) (by decide) (by decide) (by decide) (by decide)
    (by decide) (by decide) (by decide) (by decide) (by decide) (by decide)
    (by decide) (by decide) (by decide) (by decide) (by decide) (by decide)
  have h2 := claim_C1_matmul_tiling_equivalence witMatA witMatB 5 2 5 4
    true false 3 3 9 1 3 3 5 0 0 0 1 1 0 0 1 0 0 1 0 0 0 1 0
    witGarbage witGarbage witGarbage witGarbage witGarbage witGarbage
    (by decide) (by decide) (by decide) (by decide) (by decide) (by decide)
    (by decide) (by decide) (by decide) (by decide) (by decide) (by decide)
    (by decide) (by decide) (by decide) (by decide) (by decide) (by decide)
  exact ⟨⟨by decide, by decide, by simpa using h1.1⟩, by simpa using h2.1⟩

/-- Claim C6: in every matmul variant (all four variant models accumulate
over `numTiles` and `sizeTS`), `numTiles` is the ceiling of
`sharedDimensionPacked / tileK` (characterized as the least tile count
covering `S`), the inner loop bound is `tileK` on every tile except that
on the final tile it switches to `S % tileK` when that remainder is
nonzero; consequently the loops accumulate exactly the `S` packed
positions of the contraction dimension and never visit a position past the
logical bound. -/
theorem claim_C6_last_tile_remainder (TS S : ℕ) (hTS : 0 < TS) :
    (S ≤ TS * numTiles TS S ∧ ∀ n : ℕ, S ≤ TS * n → numTiles TS S ≤ n) ∧
    (∀ t : ℕ, t < numTiles TS S → t ≠ numTiles TS S - 1 ∨ S % TS = 0 →
      sizeTS TS S t = TS) ∧
    (S % TS ≠ 0 → sizeTS TS S (numTiles TS S - 1) = S % TS) ∧
    (∀ f : ℕ → ℚ,
      (∑ t ∈ Finset.range (numTiles TS S),
        ∑ i ∈ Finset.range (sizeTS TS S t), f (TS * t + i))
        = ∑ k ∈ Finset.range S, f k) ∧
    (∀ t i : ℕ, t < numTiles TS S → i < sizeTS TS S t → TS * t + i < S) := by
  have hdm := Nat.div_add_mod S TS
  have hmlt : S % TS < TS := Nat.mod_lt _ hTS
  refine ⟨⟨?_, ?_⟩, ?_, ?_, ?_, ?_⟩
  · by_cases hr : S % TS = 0
    · rw [numTiles_of_mod_eq_zero hTS hr]
      omega
    · rw [numTiles_of_mod_ne_zero hTS hr]
      have : TS * (S / TS + 1) = TS * (S / TS) + TS := by ring
      omega
  · intro n hn
    by_cases hr : S % TS = 0
    · rw [numTiles_of_mod_eq_zero hTS hr]
      by_contra hlt
      have h1 : n + 1 ≤ S / TS := by omega
      have h2 : TS * (n + 1) ≤ TS * (S / TS) := Nat.mul_le_mul_left _ h1
      have h3 : TS * (n + 1) = TS * n + TS := by ring
      omega
    · rw [numTiles_of_mod_ne_zero hTS hr]
      by_contra hlt
      have h1 : n ≤ S / TS := by omega
      have h2 : TS * n ≤ TS * (S / TS) := Nat.mul_le_mul_left _ h1
      omega
  · intro t _ hcase
    unfold sizeTS
    rcases hcase with h | h
    · rw [if_neg]
      intro hc
      exact h hc.1
    · rw [if_neg]
      intro hc
      exact hc.2 h
  · intro hr
    unfold sizeTS
    rw [if_pos ⟨rfl, hr⟩]
  · intro f
    exact tile_cover_sum TS S hTS f
  · intro t i ht hi
    exact tile_pos_lt hTS ht hi

theorem claim_C6_last_tile_remainder_witness :
    (0 < 2 ∧ numTiles 2 5 = 3 ∧ sizeTS 2 5 0 = 2 ∧ sizeTS 2 5 2 = 1) ∧
    (5 ≤ 2 * numTiles 2 5 ∧
      (5 % 2 ≠ 0 → sizeTS 2 5 (numTiles 2 5 - 1) = 5 % 2) ∧
      (∀ t i : ℕ, t < numTiles 2 5 → i < sizeTS 2 5 t → 2 * t + i < 5)) := by
  have h := claim_C6_last_tile_remainder 2 5 (by decide)
  exact ⟨⟨by decide, by decide, by decide, by decide⟩,
    ⟨h.1.1, h.2.2.1, h.2.2.2.2⟩⟩

/-- Claim C10: the emitted helper `imod(x, y) = x - y * (x / y)` (with
truncating integer division) equals the mathematical remainder `x % y` and
lies in `[0, y)` whenever `x ≥ 0` and `y > 0`; for `x < 0` it instead
yields a non positive value in `(-y, 0]`. -/
theorem claim_C10_imod_semantics (x y : ℤ) (hy : 0 < y) :
    (0 ≤ x → imod x y = x % y ∧ 0 ≤ imod x y ∧ imod x y < y) ∧
    (x < 0 → -y < imod x y ∧ imod x y ≤ 0) := by
  constructor
  · intro hx
    have htd : Int.tdiv x y = x / y := Int.tdiv_eq_ediv hx (le_of_lt hy)
    have heq : imod x y = x % y := by
      rw [imod, htd]
      exact (Int.emod_def x y).symm
    refine ⟨heq, ?_, ?_⟩
    · rw [heq]
      exact Int.emod_nonneg x (ne_of_gt hy)
    · rw [heq]
      exact Int.emod_lt_of_pos x hy
  · intro hx
    have hm0 : (0 : ℤ) ≤ -x := by omega
    have htd : Int.tdiv (-x) y = (-x) / y := Int.tdiv_eq_ediv hm0 (le_of_lt hy)
    have heq : imod x y = -((-x) % y) := by
      rw [imod, show x = -(-x) by ring, Int.neg_tdiv, htd, Int.emod_def]
      ring
    have h1 : 0 ≤ (-x) % y := Int.emod_nonneg (-x) (ne_of_gt hy)
    have h2 : (-x) % y < y := Int.emod_lt_of_pos (-x) hy
    omega

theorem claim_C10_imod_semantics_witness :
    ((0 : ℤ) < 3 ∧ imod 7 3 = 1 ∧ imod 14 4 = 2) ∧
    (imod (-5) 3 = -2 ∧ -3 < imod (-5) 3 ∧ imod (-5) 3 ≤ 0) := by
  have h1 := (claim_C10_imod_semantics 7 3 (by decide)).1 (by decide)
  have h2 := (claim_C10_imod_semantics (-5) 3 (by decide)).2 (by decide)
  refine ⟨⟨by decide, ?_, by decide⟩, ⟨by decide, h2.1, h2.2⟩⟩
  rw [h1.1]
  decide

/-!
## The 2D packing scheme (SAMPLE_2D_SNIPPET and SHADER_PACKED_PREFIX)

The shader prefix emits

  packedUVfrom2D(texelsInLogicalRow, texNumR, texNumC, row, col):
    texelIndex = (row / 2) * texelsInLogicalRow + (col / 2);
    texR = texelIndex / texNumC; texC = texelIndex - texR * texNumC

(the CS variant returns `ivec2(texC, texR)`) and

  getChannel(frag, innerDims):
    modCoord = mod(innerDims, 2.);
    modCoord.x == 0. ? (modCoord.y == 0. ? frag.r : frag.g)
                     : (modCoord.y == 0. ? frag.b : frag.a)

with `innerDims = (row, col)`.
-/

/-- Model of the emitted `packedUVfrom2D` helper (CS form: integer texel
position `(texC, texR)`). -/
def packedUVfrom2D (texelsInLogicalRow texNumR texNumC row col : ℕ) : ℕ × ℕ :=
  let texelIndex := (row / 2) * texelsInLogicalRow + (col / 2)
  let texR := texelIndex / texNumC
  let texC := texelIndex - texR * texNumC
  (texC, texR)

/-- Model of the emitted `getChannel(frag, vec2 innerDims)` helper: channel
selection from the parities of the two inner coordinates. -/
def getChannel (frag : Vec4) (row col : ℕ) : ℚ :=
  if row % 2 = 0 then (if col % 2 = 0 then frag.x else frag.y)
  else (if col % 2 = 0 then frag.z else frag.w)

/-- A packed texture holding a 2D logical matrix `M` under the claimed
layout: the texel with flat texel index `t` (texel row `t /
texelsInLogicalRow`, texel column `t % texelsInLogicalRow`) carries the
2×2 logical block with top left corner
`(2 * (t / texelsInLogicalRow), 2 * (t % texelsInLogicalRow))`, row major
within the block. -/
def packedTexture2D (M : ℕ → ℕ → ℚ) (texelsInLogicalRow t : ℕ) : Vec4 :=
  ⟨M (2 * (t / texelsInLogicalRow)) (2 * (t % texelsInLogicalRow)),
   M (2 * (t / texelsInLogicalRow)) (2 * (t % texelsInLogicalRow) + 1),
   M (2 * (t / texelsInLogicalRow) + 1) (2 * (t % texelsInLogicalRow)),
   M (2 * (t / texelsInLogicalRow) + 1) (2 * (t % texelsInLogicalRow) + 1)⟩

/-- Claim C5: `packedUVfrom2D` maps logical `(row, col)` to the texel with
flat index `(row / 2) * texelsInLogicalRow + col / 2`; `getChannel`
selects channel r, g, b, a exactly according to the parities `(row % 2,
col % 2) = (0,0), (0,1), (1,0), (1,1)`; and under the row major 2×2 block
layout the composition of the two recovers every logical matrix entry, so
the texel at packed position `(tr, tc)` holds the logical values at
`(2tr, 2tc), (2tr, 2tc+1), (2tr+1, 2tc), (2tr+1, 2tc+1)` in channels
r, g, b, a. -/
theorem claim_C5_packed_2x2_layout (texelsInLogicalRow texNumR texNumC : ℕ)
    (row col : ℕ) (frag : Vec4) (M : ℕ → ℕ → ℚ)
    (htLR : 0 < texelsInLogicalRow) (hcol : col < 2 * texelsInLogicalRow) :
    ((packedUVfrom2D texelsInLogicalRow texNumR texNumC row col).2 *
        texNumC +
      (packedUVfrom2D texelsInLogicalRow texNumR texNumC row col).1 =
      (row / 2) * texelsInLogicalRow + col / 2) ∧
    ((row % 2 = 0 → col % 2 = 0 → getChannel frag row col = frag.x) ∧
     (row % 2 = 0 → col % 2 = 1 → getChannel frag row col = frag.y) ∧
     (row % 2 = 1 → col % 2 = 0 → getChannel frag row col = frag.z) ∧
     (row % 2 = 1 → col % 2 = 1 → getChannel frag row col = frag.w)) ∧
    (getChannel
        (packedTexture2D M texelsInLogicalRow
          ((row / 2) * texelsInLogicalRow + col / 2)) row col =
      M row col) := by
  refine ⟨?_, ⟨?_, ?_, ?_, ?_⟩, ?_⟩
  · unfold packedUVfrom2D
    have hle : ((row / 2) * texelsInLogicalRow + col / 2) / texNumC * texNumC ≤
        (row / 2) * texelsInLogicalRow + col / 2 :=
      Nat.div_mul_le_self _ _
    dsimp only
    omega
  · intro hr hc
    unfold getChannel
    rw [if_pos hr, if_pos hc]
  · intro hr hc
    unfold getChannel
    rw [if_pos hr, if_neg (by omega)]
  · intro hr hc
    unfold getChannel
    rw [if_neg (by omega), if_pos hc]
  · intro hr hc
    unfold getChannel
    rw [if_neg (by omega), if_neg (by omega)]
  · have hdiv : ((row / 2) * texelsInLogicalRow + col / 2) /
        texelsInLogicalRow = row / 2 := by
      rw [Nat.mul_comm (row / 2) texelsInLogicalRow, Nat.mul_add_div htLR,
        Nat.div_eq_of_lt (by omega : col / 2 < texelsInLogicalRow)]
      omega
    have hmod : ((row / 2) * texelsInLogicalRow + col / 2) %
        texelsInLogicalRow = col / 2 := by
      rw [Nat.mul_comm (row / 2) texelsInLogicalRow, Nat.mul_add_mod,
        Nat.mod_eq_of_lt (by omega : col / 2 < texelsInLogicalRow)]
    unfold getChannel packedTexture2D
    rw [hdiv, hmod]
    have hrow2 := Nat.div_add_mod row 2
    have hcol2 := Nat.div_add_mod col 2
    rcases Nat.mod_two_eq_zero_or_one row with hr | hr <;>
      rcases Nat.mod_two_eq_zero_or_one col with hc | hc
    · rw [if_pos hr, if_pos hc]
      dsimp only
      rw [show 2 * (row / 2) = row by omega, show 2 * (col / 2) = col by omega]
    · rw [if_pos hr, if_neg (by omega)]
      dsimp only
      rw [show 2 * (row / 2) = row by omega,
        show 2 * (col / 2) + 1 = col by omega]
    · rw [if_neg (by omega), if_pos hc]
      dsimp only
      rw [show 2 * (row / 2) + 1 = row by omega,
        show 2 * (col / 2) = col by omega]
    · rw [if_neg (by omega), if_neg (by omega)]
      dsimp only
      rw [show 2 * (row / 2) + 1 = row by omega,
        show 2 * (col / 2) + 1 = col by omega]

theorem claim_C5_packed_2x2_layout_witness :
    (0 < 3 ∧ 5 < 2 * 3 ∧
      (packedUVfrom2D 3 4 4 3 5).2 * 4 + (packedUVfrom2D 3 4 4 3 5).1 =
        (3 / 2) * 3 + 5 / 2) ∧
    getChannel
      (packedTexture2D (fun i j => (10 * i + j : ℚ)) 3 ((3 / 2) * 3 + 5 / 2))
      3 5 = (35 : ℚ) := by
  have h := claim_C5_packed_2x2_layout 3 4 4 3 5 ⟨0, 0, 0, 0⟩
    (fun i j => (10 * i + j : ℚ)) (by decide) (by decide)
  refine ⟨⟨by decide, by decide, h.1⟩, ?_⟩
  rw [h.2.2]
  norm_num

/-!
## The matmul program constructors (bias handling, descriptor fields)

Each `MatMulPackedProgramCS*` constructor is straight line code that
always returns a program descriptor; none of them throws. The variants
handle a bias request differently:

* CS (V1) and CSV2: `addBiasSnippet = addBias ? 'result +=
  getBiasAtOutCoords();' : ''` is interpolated into the user code and
  `variableNames.push('bias')`;
* CSV3 and CSV4: `if (addBias) { console.error('bias is not supported'); }`
  — a diagnostic log only; the descriptor is produced without any bias
  handling.

The models return `Except BuildError _` so that a fail fast rejection
would be expressible as `.error`; the sources never produce one.
-/

inductive VarName where
  | matrixA
  | matrixB
  | bias
deriving DecidableEq

inductive ConsoleMsg where
  | biasNotSupported
deriving DecidableEq

inductive BuildError where
  | unsupportedFeature
deriving DecidableEq

/-- Observable descriptor fields of a generated matmul program. -/
structure MatMulProgram where
  variableNames : List VarName
  outputShape : List ℕ
  localGroupSize : List ℕ
  workPerThread : Option (List ℕ)
  /-- whether the generated user code contains the
  `result += getBiasAtOutCoords();` statement -/
  addBiasSnippetPresent : Bool
  consoleErrors : List ConsoleMsg
deriving DecidableEq

/-- Constructor of MatMulPackedProgramCS: `localGroupSize = [TS, TS]`;
bias pushes the bias variable and emits the bias snippet. -/
def matMulPackedProgramCS_build (aShape outputShape : ℕ × ℕ × ℕ)
    (transposeA transposeB : Bool) (TS : ℕ) (addBias : Bool)
    (activation : Bool) : Except BuildError MatMulProgram :=
  .ok
    { variableNames :=
        if addBias then [.matrixA, .matrixB, .bias] else [.matrixA, .matrixB]
      outputShape := [outputShape.1, outputShape.2.1, outputShape.2.2]
      localGroupSize := [TS, TS]
      workPerThread := none
      addBiasSnippetPresent := addBias
      consoleErrors := [] }

/-- Constructor of MatMulPackedProgramCSV2: `RTS = TS / WPT`,
`localGroupSize = [TS, RTS]`, `workPerThread = [1, WPT]`; bias pushes the
bias variable and emits the bias snippet. -/
def matMulPackedProgramCSV2_build (aShape outputShape : ℕ × ℕ × ℕ)
    (transposeA transposeB : Bool) (TS WPT : ℕ) (addBias : Bool)
    (activation : Bool) : Except BuildError MatMulProgram :=
  .ok
    { variableNames :=
        if addBias then [.matrixA, .matrixB, .bias] else [.matrixA, .matrixB]
      outputShape := [outputShape.1, outputShape.2.1, outputShape.2.2]
      localGroupSize := [TS, TS / WPT]
      workPerThread := some [1, WPT]
      addBiasSnippetPresent := addBias
      consoleErrors := [] }

/-- Constructor of MatMulPackedProgramCSV3: `RTS = TS / WPT`,
`localGroupSize = [RTS, RTS]`, `workPerThread = [WPT, WPT]`; a bias
request only logs `console.error('bias is not supported')`. -/
def matMulPackedProgramCSV3_build (aShape outputShape : ℕ × ℕ × ℕ)
    (transposeA transposeB : Bool) (TS WPT : ℕ) (addBias : Bool)
    (activation : Bool) : Except BuildError MatMulProgram :=
  .ok
    { variableNames := [.matrixA, .matrixB]
      outputShape := [outputShape.1, outputShape.2.1, outputShape.2.2]
      localGroupSize := [TS / WPT, TS / WPT]
      workPerThread := some [WPT, WPT]
      addBiasSnippetPresent := false
      consoleErrors := if addBias then [.biasNotSupported] else [] }

/-- Constructor of MatMulPackedProgramCSV4: `[TSM, TSN] = [TS, TS]`,
`[RTSM, RTSN] = [TS / WPT, TS / WPT]`, `localGroupSize = [RTSN, RTSM]`,
`workPerThread = [WPTN, WPTM]`; a bias request only logs
`console.error('bias is not supported')`. -/
def matMulPackedProgramCSV4_build (aShape outputShape : ℕ × ℕ × ℕ)
    (transposeA transposeB : Bool) (TS TSK WPT : ℕ) (addBias : Bool)
    (activation : Bool) : Except BuildError MatMulProgram :=
  .ok
    { variableNames := [.matrixA, .matrixB]
      outputShape := [outputShape.1, outputShape.2.1, outputShape.2.2]
      localGroupSize := [TS / WPT, TS / WPT]
      workPerThread := some [WPT, WPT]
      addBiasSnippetPresent := false
      consoleErrors := if addBias then [.biasNotSupported] else [] }

/-- Counterexample to claim C2: with `addBias = true` none of the variant
constructors rejects the build — V2, V3 and V4 all return a descriptor
(V3 and V4 merely log a console error; V2 even accepts the bias). -/
theorem claim_C2_counterexample :
    (matMulPackedProgramCSV2_build (1, 4, 4) (1, 4, 4) false false 2 2 true
      false).isOk = true ∧
    (matMulPackedProgramCSV3_build (1, 4, 4) (1, 4, 4) false false 2 2 true
      false).isOk = true ∧
    (matMulPackedProgramCSV4_build (1, 4, 4) (1, 4, 4) false false 2 2 2 true
      false).isOk = true := by
  exact ⟨rfl, rfl, rfl⟩

/-- Claim C2 (amended): no variant constructor fails fast on a bias
request. V3 and V4 silently drop the request — the produced descriptor is
the one built without bias, except that the diagnostic
`bias is not supported` is logged; V2 (like V1) instead accepts the
request, pushing the bias variable and emitting the bias snippet. -/
theorem claim_C2_bias_never_rejected (aShape outputShape : ℕ × ℕ × ℕ)
    (transposeA transposeB : Bool) (TS TSK WPT : ℕ) (activation : Bool) :
    (∀ addBias : Bool,
      (matMulPackedProgramCSV2_build aShape outputShape transposeA transposeB
        TS WPT addBias activation).isOk = true ∧
      (matMulPackedProgramCSV3_build aShape outputShape transposeA transposeB
        TS WPT addBias activation).isOk = true ∧
      (matMulPackedProgramCSV4_build aShape outputShape transposeA transposeB
        TS TSK WPT addBias activation).isOk = true) ∧
    (matMulPackedProgramCSV3_build aShape outputShape transposeA transposeB
        TS WPT true activation =
      (matMulPackedProgramCSV3_build aShape outputShape transposeA transposeB
        TS WPT false activation).map
        (fun d => { d with consoleErrors := [.biasNotSupported] })) ∧
    (matMulPackedProgramCSV4_build aShape outputShape transposeA transposeB
        TS TSK WPT true activation =
      (matMulPackedProgramCSV4_build aShape outputShape transposeA transposeB
        TS TSK WPT false activation).map
        (fun d => { d with consoleErrors := [.biasNotSupported] })) ∧
    (matMulPackedProgramCSV2_build aShape outputShape transposeA transposeB
        TS WPT true activation =
      (matMulPackedProgramCSV2_build aShape outputShape transposeA transposeB
        TS WPT false activation).map
        (fun d => { d with
          variableNames := d.variableNames ++ [.bias]
          addBiasSnippetPresent := true })) := by
  refine ⟨fun addBias => ⟨rfl, rfl, rfl⟩, rfl, rfl, rfl⟩

/-!
## Store behavior of the matmul variants (claim C8)

* V1 ends with `setOutput(result)`, which writes at
  `ivec2(gl_GlobalInvocationID.xy)` unconditionally.
* V2 ends with an unguarded loop
  `imageStore(outputColor, ivec2(globalCol, globalRow + w*RTS), result[w])`.
* V3 and V4 guard each store: rows with
  `outputRow >= ceil(outputShape[1] / 2)` and columns with
  `outputCol >= ceil(outputShape[2] / 2)` are skipped with `continue`
  (the row guard skips the whole inner column loop).

The models below give, for one thread, the list of `(x, y)` image
positions the generated code passes to the store primitive.
-/

/-- Image positions stored by thread `(row, col)` of workgroup
`(wgY, wgX)` in MatMulPackedProgramCS (always exactly its global id). -/
def matMulCS_storePositions (TS wgY wgX row col : ℕ) : List (ℕ × ℕ) :=
  [(TS * wgX + col, TS * wgY + row)]

/-- Image positions stored by thread `(row, col)` in
MatMulPackedProgramCSV2: one per `w < WPT`, unguarded. -/
def matMulCSV2_storePositions (TS RTS WPT wgY wgX row col : ℕ) :
    List (ℕ × ℕ) :=
  (List.range WPT).map
    (fun w => (TS * wgX + col, TS * wgY + row + w * RTS))

/-- Image positions stored by thread `(row, col)` in
MatMulPackedProgramCSV3: guarded against the packed output bounds. -/
def matMulCSV3_storePositions (TS RTS WPT wgY wgX row col out1 out2 : ℕ) :
    List (ℕ × ℕ) :=
  (List.range WPT).flatMap
    (fun innerRow =>
      let outputRow := TS * wgY + row + innerRow * RTS
      if outputRow ≥ (out1 + 1) / 2 then []
      else
        (List.range WPT).filterMap
          (fun innerCol =>
            let outputCol := TS * wgX + col + innerCol * RTS
            if outputCol ≥ (out2 + 1) / 2 then none
            else some (outputCol, outputRow)))

/-- Image positions stored by thread `(tidn, tidm)` in
MatMulPackedProgramCSV4: guarded against the packed output bounds. -/
def matMulCSV4_storePositions (TS RTS WPT wgY wgX tidm tidn out1 out2 : ℕ) :
    List (ℕ × ℕ) :=
  (List.range WPT).flatMap
    (fun wm =>
      let globalRow := TS * wgY + tidm + wm * RTS
      if globalRow ≥ (out1 + 1) / 2 then []
      else
        (List.range WPT).filterMap
          (fun wn =>
            let globalCol := TS * wgX + tidn + wn * RTS
            if globalCol ≥ (out2 + 1) / 2 then none
            else some (globalCol, globalRow)))

/-- Counterexample to claim C8: MatMulPackedProgramCSV2 stores a value at
packed row 1 although the packed output bound `ceil(outputShape[1] / 2)`
is 1 (outputShape `[1, 2, 2]`, TS = 2, WPT = 2, RTS = 1, thread (0,0) of
workgroup (0,0)): out of bounds positions are not skipped on write. -/
theorem claim_C8_counterexample :
    (0, 1) ∈ matMulCSV2_storePositions 2 1 2 0 0 0 0 ∧
      ¬ (1 < (2 + 1) / 2) := by
  constructor
  · decide
  · decide

/-- Claim C8 (amended): only V3 and V4 guard the final store — every
position they store lies within the packed output bounds
`ceil(outputShape[1]/2) × ceil(outputShape[2]/2)`; V1 and V2 store at
their thread positions unconditionally (V1 exactly its global invocation
id, V2 all `WPT` row offsets), whether or not those lie in bounds. -/
theorem claim_C8_store_guards
    (TS RTS WPT wgY wgX row col tidm tidn out1 out2 : ℕ) :
    (∀ p ∈ matMulCSV3_storePositions TS RTS WPT wgY wgX row col out1 out2,
      p.2 < (out1 + 1) / 2 ∧ p.1 < (out2 + 1) / 2) ∧
    (∀ p ∈ matMulCSV4_storePositions TS RTS WPT wgY wgX tidm tidn out1 out2,
      p.2 < (out1 + 1) / 2 ∧ p.1 < (out2 + 1) / 2) ∧
    (matMulCS_storePositions TS wgY wgX row col =
      [(TS * wgX + col, TS * wgY + row)]) ∧
    (∀ w : ℕ, w < WPT →
      (TS * wgX + col, TS * wgY + row + w * RTS) ∈
        matMulCSV2_storePositions TS RTS WPT wgY wgX row col) := by
  refine ⟨?_, ?_, rfl, ?_⟩
  · intro p hp
    rw [matMulCSV3_storePositions, List.mem_flatMap] at hp
    obtain ⟨innerRow, _, hp⟩ := hp
    by_cases hrow : TS * wgY + row + innerRow * RTS ≥ (out1 + 1) / 2
    · rw [if_pos hrow] at hp
      exact absurd hp (List.not_mem_nil _)
    · rw [if_neg hrow, List.mem_filterMap] at hp
      obtain ⟨innerCol, _, hp⟩ := hp
      by_cases hcol : TS * wgX + col + innerCol * RTS ≥ (out2 + 1) / 2
      · rw [if_pos hcol] at hp
        exact absurd hp (by simp)
      · rw [if_neg hcol] at hp
        cases hp
        exact ⟨by omega, by omega⟩
  · intro p hp
    rw [matMulCSV4_storePositions, List.mem_flatMap] at hp
    obtain ⟨wm, _, hp⟩ := hp
    by_cases hrow : TS * wgY + tidm + wm * RTS ≥ (out1 + 1) / 2
    · rw [if_pos hrow] at hp
      exact absurd hp (List.not_mem_nil _)
    · rw [if_neg hrow, List.mem_filterMap] at hp
      obtain ⟨wn, _, hp⟩ := hp
      by_cases hcol : TS * wgX + tidn + wn * RTS ≥ (out2 + 1) / 2
      · rw [if_pos hcol] at hp
        exact absurd hp (by simp)
      · rw [if_neg hcol] at hp
        cases hp
        exact ⟨by omega, by omega⟩
  · intro w hw
    rw [matMulCSV2_storePositions, List.mem_map]
    exact ⟨w, List.mem_range.mpr hw, rfl⟩

theorem claim_C8_store_guards_witness :
    ((0, 0) ∈ matMulCSV3_storePositions 2 1 2 0 0 0 0 2 2 ∧
      0 < (2 + 1) / 2 ∧ 0 < (2 + 1) / 2) ∧
    (0 < 2 ∧ (0, 1) ∈ matMulCSV2_storePositions 2 1 2 0 0 1 0) := by
  have h := claim_C8_store_guards 2 1 2 0 0 0 0 0 0 2 2
  have h2 := claim_C8_store_guards 2 1 2 0 0 1 0 0 0 2 2
  refine ⟨⟨by decide, h.1 (0, 0) (by decide)⟩, ⟨by decide, ?_⟩⟩
  have := h2.2.2.2 0 (by decide)
  simpa using this

/-!
## Cache tiled convolution kernels (claim C9)

Conv2DProgramCS (conv_gpu_cs.ts): `localGroupSize = [8, 7]`, cache sizes
`CACHE_H = filterHeight`,
`CACHE_W = (7-1)*strideWidth + filterWidth + (filterWidth-1)*(dilationWidth-1)`,
`CACHE_C = inChannels`. The fill loop enumerates every flat index below
`CACHE_H * CACHE_W * CACHE_C` (each thread strides by the thread count),
decomposes it as `r, c, d`, and writes
`cache[r][c * CACHE_C + d] = getX(batch, cacheRCorner + r*dilationHeight,
cacheCCorner + c, d)` only when that input position is inside the input
bounds; other cells stay untouched (`none` below). `cacheRCorner`,
`cacheCCorner` come from `getFirstThreadOutputCoords`.

DepthwiseConv2DProgramCS (conv_gpu_depthwise_cs.ts):
`localGroupSize = [8 * channelMul, 7]`, `CACHE_C = localGroupSize[0] /
channelMul = 8`. Its fill guard checks `(cacheRCorner + r)` against the
row bounds but the value read is
`getX(batch, cacheRCorner + r * dilationHeight, cacheCCorner + c,
cacheDCorner + d)` — the dilated row, which the guard did not check.
-/

/-- Contents of `cache[r][cd]` after the fill phase of Conv2DProgramCS
(`none` when the fill left the cell untouched). -/
def conv2dCS_cache (X : ℕ → ℤ → ℤ → ℕ → ℚ)
    (inHeight inWidth inChannels filterHeight strideWidth filterWidth
      dilationHeight dilationWidth batch : ℕ)
    (cacheRCorner cacheCCorner : ℤ) (r cd : ℕ) : Option ℚ :=
  if r < filterHeight ∧
      cd < ((7 - 1) * strideWidth + filterWidth +
        (filterWidth - 1) * (dilationWidth - 1)) * inChannels ∧
      0 ≤ cacheRCorner + (r : ℤ) * (dilationHeight : ℤ) ∧
      cacheRCorner + (r : ℤ) * (dilationHeight : ℤ) < (inHeight : ℤ) ∧
      0 ≤ cacheCCorner + ((cd / inChannels : ℕ) : ℤ) ∧
      cacheCCorner + ((cd / inChannels : ℕ) : ℤ) < (inWidth : ℤ) then
    some (X batch (cacheRCorner + (r : ℤ) * (dilationHeight : ℤ))
      (cacheCCorner + ((cd / inChannels : ℕ) : ℤ)) (cd % inChannels))
  else none

/-- Contents of `cache[r][cd]` after the fill phase of
DepthwiseConv2DProgramCS. Note the guard checks the undilated row
`cacheRCorner + r` while the stored value is read at the dilated row
`cacheRCorner + r * dilationHeight`, exactly as in the source. -/
def depthwiseConv2dCS_cache (X : ℕ → ℤ → ℤ → ℕ → ℚ)
    (inHeight inWidth inChannels filterHeight strideWidth filterWidth
      dilationHeight dilationWidth batch : ℕ)
    (cacheRCorner cacheCCorner : ℤ) (cacheDCorner : ℕ) (r cd : ℕ) :
    Option ℚ :=
  if r < filterHeight ∧
      cd < ((7 - 1) * strideWidth + filterWidth +
        (filterWidth - 1) * (dilationWidth - 1)) * 8 ∧
      0 ≤ cacheRCorner + (r : ℤ) ∧
      cacheRCorner + (r : ℤ) < (inHeight : ℤ) ∧
      0 ≤ cacheCCorner + ((cd / 8 : ℕ) : ℤ) ∧
      cacheCCorner + ((cd / 8 : ℕ) : ℤ) < (inWidth : ℤ) ∧
      cacheDCorner + cd % 8 < inChannels then
    some (X batch (cacheRCorner + (r : ℤ) * (dilationHeight : ℤ))
      (cacheCCorner + ((cd / 8 : ℕ) : ℤ)) (cacheDCorner + cd % 8))
  else none

/-- Claim C9: the Conv2DProgramCS part holds — its fill phase writes a
cell only from in bounds input positions, and for every stride and
dilation the compute phase read `cache[sR][sC + d1]` (with `sR = wR`,
`sC = (xC - cacheCCorner) * CACHE_C`) of a filter tap that passed the
bounds check returns exactly `getX(batch, xR, xC, d1)`. The
DepthwiseConv2DProgramCS part is false on the code: with
`dilationHeight = 2` its fill guard passes (it checks the undilated row)
while the value stored is read from input row
`cacheRCorner + r * dilationHeight`, which lies outside the input bounds —
last conjunct, evaluated at the failing input `inHeight = 2,
filterHeight = 2, dilationHeight = 2, r = 1, cacheRCorner = 0`: the cell
holds the value at row 2 although the input has only rows 0 and 1. -/
theorem claim_C9_conv_cache_safety (X : ℕ → ℤ → ℤ → ℕ → ℚ)
    (inHeight inWidth inChannels filterHeight strideWidth filterWidth
      dilationHeight dilationWidth batch : ℕ)
    (cacheRCorner cacheCCorner xRCorner xCCorner : ℤ)
    (dlt wR wC d1 : ℕ)
    (hfw : 1 ≤ filterWidth) (hdw : 1 ≤ dilationWidth)
    (hRc : xRCorner = cacheRCorner)
    (hCc : xCCorner = cacheCCorner + (dlt : ℤ) * (strideWidth : ℤ))
    (hdlt : dlt < 7)
    (hwR : wR < filterHeight) (hwC : wC < filterWidth)
    (hd1 : d1 < inChannels)
    (hxR0 : 0 ≤ xRCorner + (wR : ℤ) * (dilationHeight : ℤ))
    (hxR1 : xRCorner + (wR : ℤ) * (dilationHeight : ℤ) < (inHeight : ℤ))
    (hxC0 : 0 ≤ xCCorner + (wC : ℤ) * (dilationWidth : ℤ))
    (hxC1 : xCCorner + (wC : ℤ) * (dilationWidth : ℤ) < (inWidth : ℤ)) :
    (∀ r cd : ℕ, ∀ v : ℚ,
      conv2dCS_cache X inHeight inWidth inChannels filterHeight strideWidth
        filterWidth dilationHeight dilationWidth batch cacheRCorner
        cacheCCorner r cd = some v →
      (0 ≤ cacheRCorner + (r : ℤ) * (dilationHeight : ℤ) ∧
        cacheRCorner + (r : ℤ) * (dilationHeight : ℤ) < (inHeight : ℤ) ∧
        0 ≤ cacheCCorner + ((cd / inChannels : ℕ) : ℤ) ∧
        cacheCCorner + ((cd / inChannels : ℕ) : ℤ) < (inWidth : ℤ) ∧
        v = X batch (cacheRCorner + (r : ℤ) * (dilationHeight : ℤ))
          (cacheCCorner + ((cd / inChannels : ℕ) : ℤ)) (cd % inChannels))) ∧
    ((xCCorner + (wC : ℤ) * (dilationWidth : ℤ)) - cacheCCorner =
      ((dlt * strideWidth + wC * dilationWidth : ℕ) : ℤ)) ∧
    (conv2dCS_cache X inHeight inWidth inChannels filterHeight strideWidth
        filterWidth dilationHeight dilationWidth batch cacheRCorner
        cacheCCorner wR
        ((dlt * strideWidth + wC * dilationWidth) * inChannels + d1) =
      some (X batch (xRCorner + (wR : ℤ) * (dilationHeight : ℤ))
        (xCCorner + (wC : ℤ) * (dilationWidth : ℤ)) d1)) ∧
    (∀ Y : ℕ → ℤ → ℤ → ℕ → ℚ,
      depthwiseConv2dCS_cache Y 2 1 8 2 1 1 2 1 0 0 0 0 1 0 =
        some (Y 0 2 0 0) ∧ ¬ ((2 : ℤ) < (2 : ℤ))) := by
  have hC : 0 < inChannels := by omega
  have hmu : (filterWidth - 1) * (dilationWidth - 1) + (filterWidth - 1) =
      (filterWidth - 1) * dilationWidth := by
    rcases dilationWidth with _ | n
    · omega
    · simp only [Nat.succ_sub_one]
      ring
  have hsC : dlt * strideWidth + wC * dilationWidth <
      (7 - 1) * strideWidth + filterWidth +
        (filterWidth - 1) * (dilationWidth - 1) := by
    have h1 : wC * dilationWidth ≤ (filterWidth - 1) * dilationWidth :=
      Nat.mul_le_mul_right _ (by omega)
    have h2 : dlt * strideWidth ≤ (7 - 1) * strideWidth :=
      Nat.mul_le_mul_right _ (by omega)
    omega
  refine ⟨?_, ?_, ?_, ?_⟩
  · intro r cd v h
    rw [conv2dCS_cache] at h
    by_cases hcond : r < filterHeight ∧
        cd < ((7 - 1) * strideWidth + filterWidth +
          (filterWidth - 1) * (dilationWidth - 1)) * inChannels ∧
        0 ≤ cacheRCorner + (r : ℤ) * (dilationHeight : ℤ) ∧
        cacheRCorner + (r : ℤ) * (dilationHeight : ℤ) < (inHeight : ℤ) ∧
        0 ≤ cacheCCorner + ((cd / inChannels : ℕ) : ℤ) ∧
        cacheCCorner + ((cd / inChannels : ℕ) : ℤ) < (inWidth : ℤ)
    · rw [if_pos hcond] at h
      obtain ⟨_, _, h3, h4, h5, h6⟩ := hcond
      exact ⟨h3, h4, h5, h6, (Option.some.injEq _ _ ▸ h).symm⟩
    · rw [if_neg hcond] at h
      exact absurd h (by simp)
  · push_cast
    rw [hCc]
    ring
  · have hdiv : ((dlt * strideWidth + wC * dilationWidth) * inChannels + d1) /
        inChannels = dlt * strideWidth + wC * dilationWidth := by
      rw [Nat.mul_comm _ inChannels, Nat.mul_add_div hC,
        Nat.div_eq_of_lt hd1]
      omega
    have hmod : ((dlt * strideWidth + wC * dilationWidth) * inChannels + d1) %
        inChannels = d1 := by
      rw [Nat.mul_comm _ inChannels, Nat.mul_add_mod, Nat.mod_eq_of_lt hd1]
    have hcd : (dlt * strideWidth + wC * dilationWidth) * inChannels + d1 <
        ((7 - 1) * strideWidth + filterWidth +
          (filterWidth - 1) * (dilationWidth - 1)) * inChannels := by
      have h1 : (dlt * strideWidth + wC * dilationWidth + 1) * inChannels ≤
          ((7 - 1) * strideWidth + filterWidth +
            (filterWidth - 1) * (dilationWidth - 1)) * inChannels :=
        Nat.mul_le_mul_right _ (by omega)
      have h2 : (dlt * strideWidth + wC * dilationWidth) * inChannels + d1 <
          (dlt * strideWidth + wC * dilationWidth + 1) * inChannels := by
        have : (dlt * strideWidth + wC * dilationWidth + 1) * inChannels =
            (dlt * strideWidth + wC * dilationWidth) * inChannels +
              inChannels := by ring
        omega
      omega
    have hxCeq : cacheCCorner +
        ((((dlt * strideWidth + wC * dilationWidth) * inChannels + d1) /
          inChannels : ℕ) : ℤ) =
        xCCorner + (wC : ℤ) * (dilationWidth : ℤ) := by
      rw [hdiv, hCc]
      push_cast
      ring
    rw [conv2dCS_cache, if_pos]
    · rw [hmod, hxCeq, hRc]
    · refine ⟨hwR, hcd, ?_, ?_, ?_, ?_⟩
      · rw [← hRc]; exact hxR0
      · rw [← hRc]; exact hxR1
      · rw [hxCeq]; exact hxC0
      · rw [hxCeq]; exact hxC1
  · intro Y
    constructor
    · rfl
    · omega

theorem claim_C9_conv_cache_safety_witness :
    (conv2dCS_cache (fun b i j d => (b + 2 * i + 3 * j + 5 * d : ℚ))
        4 5 2 3 1 3 1 1 0 (-1) (-1) 1 ((0 * 1 + 2 * 1) * 2 + 1) =
      some ((fun b i j d => (b + 2 * i + 3 * j + 5 * d : ℚ)) 0 0 1 1)) ∧
    (1 ≤ 3 ∧ (1 : ℕ) < 3 ∧ (1 : ℕ) < 2) ∧
    (depthwiseConv2dCS_cache (fun b i j d => (b + 2 * i + 3 * j + 5 * d : ℚ))
        2 1 8 2 1 1 2 1 0 0 0 0 1 0 =
      some ((fun b i j d => (b + 2 * i + 3 * j + 5 * d : ℚ)) 0 2 0 0)) := by
  have h := claim_C9_conv_cache_safety
    (fun b i j d => (b + 2 * i + 3 * j + 5 * d : ℚ))
    4 5 2 3 1 3 1 1 0 (-1) (-1) (-1) (-1) 0 1 2 1
    (by decide) (by decide) (by decide) (by norm_num) (by decide)
    (by decide) (by decide) (by decide)
    (by decide) (by decide) (by decide) (by decide)
  exact ⟨by simpa using h.2.2.1, ⟨by decide, by decide, by decide⟩,
    (h.2.2.2 (fun b i j d => (b + 2 * i + 3 * j + 5 * d : ℚ))).1⟩

/-!
## Shape metadata and the rank dispatch of the coordinate mapping compiler

`ShapeInfo` and `InputInfo` follow the exported types of the shader
compiler (the `name` field of `InputInfo` only forms GLSL identifiers and
is not modelled). `getSamplerFromInInfo` / `getSamplerFromInInfoCS` and
their packed counterparts dispatch on `shape.length`; several per rank
generators first squeeze away size 1 axes and recurse into the dispatch
for the squeezed input. The models record, as a `SamplerCode`, which
generator finally produced the sampler (branches within one rank all emit
a sampler of that rank; their address formulas are modelled separately
below), and return `Except GenError _` so that the thrown
`...-D input sampling is not yet supported` errors are `.error` values.
-/

structure ShapeInfo where
  logicalShape : List ℕ
  texShape : ℕ × ℕ
  isUniform : Bool
  isPacked : Bool
  flatOffset : Option ℕ
deriving DecidableEq

structure InputInfo where
  shapeInfo : ShapeInfo
deriving DecidableEq

/-- Modelled from the spec: `util.squeezeShape` (util.ts is not under
src/) — "any axis of logical size 1 is elided before address formula
generation ... stored as a keptDims index list" (spec section 4.1).
Returns the shape without its size 1 axes and the indices of the kept
axes. -/
def squeezeShape (shape : List ℕ) : List ℕ × List ℕ :=
  let kept := shape.enum.filter (fun p => p.2 ≠ 1)
  (kept.map (fun p => p.2), kept.map (fun p => p.1))

/-- `squeezeInputInfo`: a copy of the input info with the squeezed
logical shape. -/
def squeezeInputInfo (inInfo : InputInfo) (squeezedShape : List ℕ) :
    InputInfo :=
  { shapeInfo := { inInfo.shapeInfo with logicalShape := squeezedShape } }

inductive GenError where
  | unsupportedRank (rank : ℕ)
deriving DecidableEq

inductive SamplerCode where
  | scalar
  | s1D
  | s2D
  | s3D
  | s4D
  | s5D
  | s6D
  | packedScalar
  | packed1D
  | packed2D
  | packed3D
  | packedND (rank : ℕ)
  | squeezed (keptDims : List ℕ) (inner : SamplerCode)
deriving DecidableEq

/-- The rank dispatch `getSamplerFromInInfo` of the texture sampling path
with the per rank generators `getSamplerScalar` … `getSampler6D` inlined
as match arms: ranks 2–6 first elide size 1 axes (rank 2 after its
shape = texShape early return) and recurse into the dispatch for the
squeezed input; rank above 6 throws. -/
def getSamplerFromInInfo (inInfo : InputInfo) : Except GenError SamplerCode :=
  match inInfo.shapeInfo.logicalShape.length with
  | 0 => .ok .scalar
  | 1 => .ok .s1D
  | 2 =>
    if inInfo.shapeInfo.logicalShape =
        [inInfo.shapeInfo.texShape.1, inInfo.shapeInfo.texShape.2] then
      .ok .s2D
    else
      if h : (squeezeShape inInfo.shapeInfo.logicalShape).1.length <
          inInfo.shapeInfo.logicalShape.length then
        (getSamplerFromInInfo (squeezeInputInfo inInfo
            (squeezeShape inInfo.shapeInfo.logicalShape).1)).map
          (SamplerCode.squeezed (squeezeShape inInfo.shapeInfo.logicalShape).2)
      else .ok .s2D
  | 3 =>
    if h : (squeezeShape inInfo.shapeInfo.logicalShape).1.length <
        inInfo.shapeInfo.logicalShape.length then
      (getSamplerFromInInfo (squeezeInputInfo inInfo
          (squeezeShape inInfo.shapeInfo.logicalShape).1)).map
        (SamplerCode.squeezed (squeezeShape inInfo.shapeInfo.logicalShape).2)
    else .ok .s3D
  | 4 =>
    if h : (squeezeShape inInfo.shapeInfo.logicalShape).1.length <
        inInfo.shapeInfo.logicalShape.length then
      (getSamplerFromInInfo (squeezeInputInfo inInfo
          (squeezeShape inInfo.shapeInfo.logicalShape).1)).map
        (SamplerCode.squeezed (squeezeShape inInfo.shapeInfo.logicalShape).2)
    else .ok .s4D
  | 5 =>
    if h : (squeezeShape inInfo.shapeInfo.logicalShape).1.length <
        inInfo.shapeInfo.logicalShape.length then
      (getSamplerFromInInfo (squeezeInputInfo inInfo
          (squeezeShape inInfo.shapeInfo.logicalShape).1)).map
        (SamplerCode.squeezed (squeezeShape inInfo.shapeInfo.logicalShape).2)
    else .ok .s5D
  | 6 =>
    if h : (squeezeShape inInfo.shapeInfo.logicalShape).1.length <
        inInfo.shapeInfo.logicalShape.length then
      (getSamplerFromInInfo (squeezeInputInfo inInfo
          (squeezeShape inInfo.shapeInfo.logicalShape).1)).map
        (SamplerCode.squeezed (squeezeShape inInfo.shapeInfo.logicalShape).2)
    else .ok .s6D
  | n + 7 => .error (.unsupportedRank (n + 7))
termination_by inInfo.shapeInfo.logicalShape.length
decreasing_by
  all_goals simp only [squeezeInputInfo]
  all_goals exact h

/-- The rank dispatch `getSamplerFromInInfoCS` of the compute shader
(indexed) path: only ranks 0–4 are handled (`getSamplerScalarCS` …
`getSampler4DCS`); every rank of 5 and above throws. -/
def getSamplerFromInInfoCS (inInfo : InputInfo) :
    Except GenError SamplerCode :=
  match inInfo.shapeInfo.logicalShape.length with
  | 0 => .ok .scalar
  | 1 => .ok .s1D
  | 2 =>
    if inInfo.shapeInfo.logicalShape =
        [inInfo.shapeInfo.texShape.1, inInfo.shapeInfo.texShape.2] then
      .ok .s2D
    else
      if h : (squeezeShape inInfo.shapeInfo.logicalShape).1.length <
          inInfo.shapeInfo.logicalShape.length then
        (getSamplerFromInInfoCS (squeezeInputInfo inInfo
            (squeezeShape inInfo.shapeInfo.logicalShape).1)).map
          (SamplerCode.squeezed (squeezeShape inInfo.shapeInfo.logicalShape).2)
      else .ok .s2D
  | 3 =>
    if h : (squeezeShape inInfo.shapeInfo.logicalShape).1.length <
        inInfo.shapeInfo.logicalShape.length then
      (getSamplerFromInInfoCS (squeezeInputInfo inInfo
          (squeezeShape inInfo.shapeInfo.logicalShape).1)).map
        (SamplerCode.squeezed (squeezeShape inInfo.shapeInfo.logicalShape).2)
    else .ok .s3D
  | 4 =>
    if h : (squeezeShape inInfo.shapeInfo.logicalShape).1.length <
        inInfo.shapeInfo.logicalShape.length then
      (getSamplerFromInInfoCS (squeezeInputInfo inInfo
          (squeezeShape inInfo.shapeInfo.logicalShape).1)).map
        (SamplerCode.squeezed (squeezeShape inInfo.shapeInfo.logicalShape).2)
    else .ok .s4D
  | n + 5 => .error (.unsupportedRank (n + 5))
termination_by inInfo.shapeInfo.logicalShape.length
decreasing_by
  all_goals simp only [squeezeInputInfo]
  all_goals exact h

/-- The packed rank dispatch `getPackedSamplerFromInInfo`: ranks 0–3 are
handled by the named generators (rank 3 recurses into the dispatch when
`shape[0] === 1`) and every higher rank falls through to
`getPackedSamplerND` — no rank ever throws. -/
def getPackedSamplerFromInInfo (inInfo : InputInfo) :
    Except GenError SamplerCode :=
  match hn : inInfo.shapeInfo.logicalShape.length with
  | 0 => .ok .packedScalar
  | 1 => .ok .packed1D
  | 2 => .ok .packed2D
  | 3 =>
    if inInfo.shapeInfo.logicalShape.headI = 1 then
      (getPackedSamplerFromInInfo (squeezeInputInfo inInfo
          inInfo.shapeInfo.logicalShape.tail)).map
        (SamplerCode.squeezed [1, 2])
    else .ok .packed3D
  | n + 4 => .ok (.packedND (n + 4))
termination_by inInfo.shapeInfo.logicalShape.length
decreasing_by
  simp only [squeezeInputInfo, List.length_tail]
  omega

/-- The packed compute shader rank dispatch `getPackedSamplerFromInInfoCS`
(same structure; ranks above 3 fall through to `getPackedSamplerNDCS`). -/
def getPackedSamplerFromInInfoCS (inInfo : InputInfo) :
    Except GenError SamplerCode :=
  match hn : inInfo.shapeInfo.logicalShape.length with
  | 0 => .ok .packedScalar
  | 1 => .ok .packed1D
  | 2 => .ok .packed2D
  | 3 =>
    if inInfo.shapeInfo.logicalShape.headI = 1 then
      (getPackedSamplerFromInInfoCS (squeezeInputInfo inInfo
          inInfo.shapeInfo.logicalShape.tail)).map
        (SamplerCode.squeezed [1, 2])
    else .ok .packed3D
  | n + 4 => .ok (.packedND (n + 4))
termination_by inInfo.shapeInfo.logicalShape.length
decreasing_by
  simp only [squeezeInputInfo, List.length_tail]
  omega

inductive OutputCode where
  | outScalar
  | out1D
  | out2D
  | out3D
  | out4D
  | out5D
  | out6D
  | outPacked1D
  | outPacked2D
  | outPacked3D
  | outPackedND (rank : ℕ)
deriving DecidableEq

/-- The output decoder dispatch `getOutputSamplingSnippet` (texture
sampling path): ranks 0–6, above 6 throws. -/
def getOutputSamplingSnippet (outShape : List ℕ) (outTexShape : ℕ × ℕ) :
    Except GenError OutputCode :=
  match outShape.length with
  | 0 => .ok .outScalar
  | 1 => .ok .out1D
  | 2 => .ok .out2D
  | 3 => .ok .out3D
  | 4 => .ok .out4D
  | 5 => .ok .out5D
  | 6 => .ok .out6D
  | n + 7 => .error (.unsupportedRank (n + 7))

/-- The output decoder dispatch `getOutputSamplingSnippetCS`: ranks 0–4
use the CS decoders, ranks 5 and 6 fall back to the texture sampling
decoders (`getOutput5DCoords`, `getOutput6DCoords`), above 6 throws. -/
def getOutputSamplingSnippetCS (outShape : List ℕ) (outTexShape : ℕ × ℕ) :
    Except GenError OutputCode :=
  match outShape.length with
  | 0 => .ok .outScalar
  | 1 => .ok .out1D
  | 2 => .ok .out2D
  | 3 => .ok .out3D
  | 4 => .ok .out4D
  | 5 => .ok .out5D
  | 6 => .ok .out6D
  | n + 7 => .error (.unsupportedRank (n + 7))

/-- The packed output decoder dispatch `getPackedOutputSamplingSnippet`:
ranks 0–3 named, every higher rank falls through to
`getOutputPackedNDCoords` — never throws. -/
def getPackedOutputSamplingSnippet (outShape : List ℕ)
    (outTexShape : ℕ × ℕ) : Except GenError OutputCode :=
  match outShape.length with
  | 0 => .ok .outScalar
  | 1 => .ok .outPacked1D
  | 2 => .ok .outPacked2D
  | 3 => .ok .outPacked3D
  | n + 4 => .ok (.outPackedND (n + 4))

/-- The packed CS output decoder dispatch
`getPackedOutputSamplingSnippetCS` (same structure — never throws). -/
def getPackedOutputSamplingSnippetCS (outShape : List ℕ)
    (outTexShape : ℕ × ℕ) : Except GenError OutputCode :=
  match outShape.length with
  | 0 => .ok .outScalar
  | 1 => .ok .outPacked1D
  | 2 => .ok .outPacked2D
  | 3 => .ok .outPacked3D
  | n + 4 => .ok (.outPackedND (n + 4))

theorem squeezeInputInfo_length (inInfo : InputInfo) (s : List ℕ) :
    (squeezeInputInfo inInfo s).shapeInfo.logicalShape.length = s.length := rfl

theorem exceptMap_isOk {α β γ : Type} (e : Except γ α) (f : α → β) :
    (e.map f).isOk = e.isOk := by
  cases e <;> rfl

theorem getSamplerFromInInfo_isOk_aux :
    ∀ n : ℕ, ∀ inInfo : InputInfo,
      inInfo.shapeInfo.logicalShape.length = n → n ≤ 6 →
      (getSamplerFromInInfo inInfo).isOk = true := by
  intro n
  induction n using Nat.strong_induction_on with
  | _ n IH =>
    intro inInfo hlen hle
    rw [getSamplerFromInInfo.eq_def, hlen]
    interval_cases n
    · rfl
    · rfl
    · dsimp only
      split
      · rfl
      · split
        · rename_i h
          have hrec := IH (squeezeShape inInfo.shapeInfo.logicalShape).1.length
            (by omega)
            (squeezeInputInfo inInfo (squeezeShape inInfo.shapeInfo.logicalShape).1)
            (squeezeInputInfo_length inInfo
              (squeezeShape inInfo.shapeInfo.logicalShape).1) (by omega)
          rw [exceptMap_isOk, hrec]
        · rfl
    · dsimp only
      split
      · rename_i h
        have hrec := IH (squeezeShape inInfo.shapeInfo.logicalShape).1.length
          (by omega)
          (squeezeInputInfo inInfo (squeezeShape inInfo.shapeInfo.logicalShape).1)
          (squeezeInputInfo_length inInfo
            (squeezeShape inInfo.shapeInfo.logicalShape).1) (by omega)
        rw [exceptMap_isOk, hrec]
      · rfl
    · dsimp only
      split
      · rename_i h
        have hrec := IH (squeezeShape inInfo.shapeInfo.logicalShape).1.length
          (by omega)
          (squeezeInputInfo inInfo (squeezeShape inInfo.shapeInfo.logicalShape).1)
          (squeezeInputInfo_length inInfo
            (squeezeShape inInfo.shapeInfo.logicalShape).1) (by omega)
        rw [exceptMap_isOk, hrec]
      · rfl
    · dsimp only
      split
      · rename_i h
        have hrec := IH (squeezeShape inInfo.shapeInfo.logicalShape).1.length
          (by omega)
          (squeezeInputInfo inInfo (squeezeShape inInfo.shapeInfo.logicalShape).1)
          (squeezeInputInfo_length inInfo
            (squeezeShape inInfo.shapeInfo.logicalShape).1) (by omega)
        rw [exceptMap_isOk, hrec]
      · rfl
    · dsimp only
      split
      · rename_i h
        have hrec := IH (squeezeShape inInfo.shapeInfo.logicalShape).1.length
          (by omega)
          (squeezeInputInfo inInfo (squeezeShape inInfo.shapeInfo.logicalShape).1)
          (squeezeInputInfo_length inInfo
            (squeezeShape inInfo.shapeInfo.logicalShape).1) (by omega)
        rw [exceptMap_isOk, hrec]
      · rfl

theorem getSamplerFromInInfoCS_isOk_aux :
    ∀ n : ℕ, ∀ inInfo : InputInfo,
      inInfo.shapeInfo.logicalShape.length = n → n ≤ 4 →
      (getSamplerFromInInfoCS inInfo).isOk = true := by
  intro n
  induction n using Nat.strong_induction_on with
  | _ n IH =>
    intro inInfo hlen hle
    rw [getSamplerFromInInfoCS.eq_def, hlen]
    interval_cases n
    · rfl
    · rfl
    · dsimp only
      split
      · rfl
      · split
        · rename_i h
          have hrec := IH (squeezeShape inInfo.shapeInfo.logicalShape).1.length
            (by omega)
            (squeezeInputInfo inInfo (squeezeShape inInfo.shapeInfo.logicalShape).1)
            (squeezeInputInfo_length inInfo
              (squeezeShape inInfo.shapeInfo.logicalShape).1) (by omega)
          rw [exceptMap_isOk, hrec]
        · rfl
    · dsimp only
      split
      · rename_i h
        have hrec := IH (squeezeShape inInfo.shapeInfo.logicalShape).1.length
          (by omega)
          (squeezeInputInfo inInfo (squeezeShape inInfo.shapeInfo.logicalShape).1)
          (squeezeInputInfo_length inInfo
            (squeezeShape inInfo.shapeInfo.logicalShape).1) (by omega)
        rw [exceptMap_isOk, hrec]
      · rfl
    · dsimp only
      split
      · rename_i h
        have hrec := IH (squeezeShape inInfo.shapeInfo.logicalShape).1.length
          (by omega)
          (squeezeInputInfo inInfo (squeezeShape inInfo.shapeInfo.logicalShape).1)
          (squeezeInputInfo_length inInfo
            (squeezeShape inInfo.shapeInfo.logicalShape).1) (by omega)
        rw [exceptMap_isOk, hrec]
      · rfl

theorem getSamplerFromInInfo_err (inInfo : InputInfo)
    (h : 6 < inInfo.shapeInfo.logicalShape.length) :
    getSamplerFromInInfo inInfo =
      .error (.unsupportedRank inInfo.shapeInfo.logicalShape.length) := by
  rw [getSamplerFromInInfo.eq_def,
    show inInfo.shapeInfo.logicalShape.length =
      (inInfo.shapeInfo.logicalShape.length - 7) + 7 from by omega]

theorem getSamplerFromInInfoCS_err (inInfo : InputInfo)
    (h : 4 < inInfo.shapeInfo.logicalShape.length) :
    getSamplerFromInInfoCS inInfo =
      .error (.unsupportedRank inInfo.shapeInfo.logicalShape.length) := by
  rw [getSamplerFromInInfoCS.eq_def,
    show inInfo.shapeInfo.logicalShape.length =
      (inInfo.shapeInfo.logicalShape.length - 5) + 5 from by omega]

theorem getPackedSamplerFromInInfo_isOk_aux :
    ∀ n : ℕ, ∀ inInfo : InputInfo,
      inInfo.shapeInfo.logicalShape.length = n →
      (getPackedSamplerFromInInfo inInfo).isOk = true := by
  intro n
  induction n using Nat.strong_induction_on with
  | _ n IH =>
    intro inInfo hlen
    rw [getPackedSamplerFromInInfo.eq_def, hlen]
    match hn : n with
    | 0 => rfl
    | 1 => rfl
    | 2 => rfl
    | 3 =>
      dsimp only
      split
      · have hrec := IH inInfo.shapeInfo.logicalShape.tail.length
          (by rw [List.length_tail]; omega)
          (squeezeInputInfo inInfo inInfo.shapeInfo.logicalShape.tail)
          (squeezeInputInfo_length inInfo inInfo.shapeInfo.logicalShape.tail)
        rw [exceptMap_isOk, hrec]
      · rfl
    | m + 4 => rfl

theorem getPackedSamplerFromInInfoCS_isOk_aux :
    ∀ n : ℕ, ∀ inInfo : InputInfo,
      inInfo.shapeInfo.logicalShape.length = n →
      (getPackedSamplerFromInInfoCS inInfo).isOk = true := by
  intro n
  induction n using Nat.strong_induction_on with
  | _ n IH =>
    intro inInfo hlen
    rw [getPackedSamplerFromInInfoCS.eq_def, hlen]
    match hn : n with
    | 0 => rfl
    | 1 => rfl
    | 2 => rfl
    | 3 =>
      dsimp only
      split
      · have hrec := IH inInfo.shapeInfo.logicalShape.tail.length
          (by rw [List.length_tail]; omega)
          (squeezeInputInfo inInfo inInfo.shapeInfo.logicalShape.tail)
          (squeezeInputInfo_length inInfo inInfo.shapeInfo.logicalShape.tail)
        rw [exceptMap_isOk, hrec]
      · rfl
    | m + 4 => rfl

theorem getOutputSamplingSnippet_isOk (outShape : List ℕ)
    (outTexShape : ℕ × ℕ) (h : outShape.length ≤ 6) :
    (getOutputSamplingSnippet outShape outTexShape).isOk = true := by
  rw [getOutputSamplingSnippet]
  have : outShape.length = 0 ∨ outShape.length = 1 ∨ outShape.length = 2 ∨
      outShape.length = 3 ∨ outShape.length = 4 ∨ outShape.length = 5 ∨
      outShape.length = 6 := by omega
  rcases this with h0 | h0 | h0 | h0 | h0 | h0 | h0 <;> rw [h0] <;> rfl

theorem getOutputSamplingSnippet_err (outShape : List ℕ)
    (outTexShape : ℕ × ℕ) (h : 6 < outShape.length) :
    getOutputSamplingSnippet outShape outTexShape =
      .error (.unsupportedRank outShape.length) := by
  rw [getOutputSamplingSnippet,
    show outShape.length = (outShape.length - 7) + 7 from by omega]

theorem getOutputSamplingSnippetCS_isOk (outShape : List ℕ)
    (outTexShape : ℕ × ℕ) (h : outShape.length ≤ 6) :
    (getOutputSamplingSnippetCS outShape outTexShape).isOk = true := by
  rw [getOutputSamplingSnippetCS]
  have : outShape.length = 0 ∨ outShape.length = 1 ∨ outShape.length = 2 ∨
      outShape.length = 3 ∨ outShape.length = 4 ∨ outShape.length = 5 ∨
      outShape.length = 6 := by omega
  rcases this with h0 | h0 | h0 | h0 | h0 | h0 | h0 <;> rw [h0] <;> rfl

theorem getOutputSamplingSnippetCS_err (outShape : List ℕ)
    (outTexShape : ℕ × ℕ) (h : 6 < outShape.length) :
    getOutputSamplingSnippetCS outShape outTexShape =
      .error (.unsupportedRank outShape.length) := by
  rw [getOutputSamplingSnippetCS,
    show outShape.length = (outShape.length - 7) + 7 from by omega]

theorem getPackedOutputSamplingSnippet_isOk (outShape : List ℕ)
    (outTexShape : ℕ × ℕ) :
    (getPackedOutputSamplingSnippet outShape outTexShape).isOk = true := by
  rw [getPackedOutputSamplingSnippet]
  have : outShape.length = 0 ∨ outShape.length = 1 ∨ outShape.length = 2 ∨
      outShape.length = 3 ∨
      outShape.length = (outShape.length - 4) + 4 := by omega
  rcases this with h0 | h0 | h0 | h0 | h0 <;> rw [h0] <;> rfl

theorem getPackedOutputSamplingSnippetCS_isOk (outShape : List ℕ)
    (outTexShape : ℕ × ℕ) :
    (getPackedOutputSamplingSnippetCS outShape outTexShape).isOk = true := by
  rw [getPackedOutputSamplingSnippetCS]
  have : outShape.length = 0 ∨ outShape.length = 1 ∨ outShape.length = 2 ∨
      outShape.length = 3 ∨
      outShape.length = (outShape.length - 4) + 4 := by omega
  rcases this with h0 | h0 | h0 | h0 | h0 <;> rw [h0] <;> rfl

/-- Counterexample to claim C3: a rank 5 input shape makes the compute
shader (indexed) sampler dispatch throw — generation does not succeed for
every rank 0 through 6 in both paths. -/
theorem claim_C3_counterexample :
    getSamplerFromInInfoCS ⟨⟨[2, 2, 2, 2, 2], (4, 8), false, false, none⟩⟩ =
      .error (.unsupportedRank 5) := by
  simp [getSamplerFromInInfoCS]

/-- Claim C3 (amended): the texture sampling input sampler dispatch and
both unpacked output decoder dispatches succeed for every rank 0–6 and
throw an unsupported rank error synchronously (an `.error` before any
code is returned) for every rank above 6; the compute shader (indexed)
input sampler dispatch however only supports ranks 0–4 and throws for
every rank of 5 and above; the packed dispatches (input and output,
sampling and indexed) never throw for any rank, falling through to the ND
generators. -/
theorem claim_C3_rank_dispatch (inInfo : InputInfo) (outShape : List ℕ)
    (outTexShape : ℕ × ℕ) :
    ((inInfo.shapeInfo.logicalShape.length ≤ 6 →
        (getSamplerFromInInfo inInfo).isOk = true) ∧
      (6 < inInfo.shapeInfo.logicalShape.length →
        getSamplerFromInInfo inInfo =
          .error (.unsupportedRank inInfo.shapeInfo.logicalShape.length))) ∧
    ((inInfo.shapeInfo.logicalShape.length ≤ 4 →
        (getSamplerFromInInfoCS inInfo).isOk = true) ∧
      (4 < inInfo.shapeInfo.logicalShape.length →
        getSamplerFromInInfoCS inInfo =
          .error (.unsupportedRank inInfo.shapeInfo.logicalShape.length))) ∧
    ((outShape.length ≤ 6 →
        (getOutputSamplingSnippet outShape outTexShape).isOk = true ∧
        (getOutputSamplingSnippetCS outShape outTexShape).isOk = true) ∧
      (6 < outShape.length →
        getOutputSamplingSnippet outShape outTexShape =
          .error (.unsupportedRank outShape.length) ∧
        getOutputSamplingSnippetCS outShape outTexShape =
          .error (.unsupportedRank outShape.length))) ∧
    ((getPackedSamplerFromInInfo inInfo).isOk = true ∧
      (getPackedSamplerFromInInfoCS inInfo).isOk = true ∧
      (getPackedOutputSamplingSnippet outShape outTexShape).isOk = true ∧
      (getPackedOutputSamplingSnippetCS outShape outTexShape).isOk = true) := by
  refine ⟨⟨?_, ?_⟩, ⟨?_, ?_⟩, ⟨?_, ?_⟩, ?_, ?_, ?_, ?_⟩
  · intro h
    exact getSamplerFromInInfo_isOk_aux _ inInfo rfl h
  · exact getSamplerFromInInfo_err inInfo
  · intro h
    exact getSamplerFromInInfoCS_isOk_aux _ inInfo rfl h
  · exact getSamplerFromInInfoCS_err inInfo
  · intro h
    exact ⟨getOutputSamplingSnippet_isOk outShape outTexShape h,
      getOutputSamplingSnippetCS_isOk outShape outTexShape h⟩
  · intro h
    exact ⟨getOutputSamplingSnippet_err outShape outTexShape h,
      getOutputSamplingSnippetCS_err outShape outTexShape h⟩
  · exact getPackedSamplerFromInInfo_isOk_aux _ inInfo rfl
  · exact getPackedSamplerFromInInfoCS_isOk_aux _ inInfo rfl
  · exact getPackedOutputSamplingSnippet_isOk outShape outTexShape
  · exact getPackedOutputSamplingSnippetCS_isOk outShape outTexShape

theorem claim_C3_rank_dispatch_witness :
    ((getSamplerFromInInfo
        ⟨⟨[2, 2, 2, 2, 2, 2], (8, 8), false, false, none⟩⟩).isOk = true) ∧
    (getSamplerFromInInfo
        ⟨⟨[2, 2, 2, 2, 2, 2, 2], (16, 8), false, false, none⟩⟩ =
      .error (.unsupportedRank 7)) ∧
    ((getSamplerFromInInfoCS
        ⟨⟨[3, 4], (3, 4), false, false, none⟩⟩).isOk = true) ∧
    (getSamplerFromInInfoCS
        ⟨⟨[2, 2, 2, 2, 2], (4, 8), false, false, none⟩⟩ =
      .error (.unsupportedRank 5)) ∧
    ((getPackedSamplerFromInInfo
        ⟨⟨[2, 2, 2, 2, 2, 2, 2], (16, 8), false, true, none⟩⟩).isOk = true) := by
  have h6 := claim_C3_rank_dispatch
    ⟨⟨[2, 2, 2, 2, 2, 2], (8, 8), false, false, none⟩⟩ [] (1, 1)
  have h7 := claim_C3_rank_dispatch
    ⟨⟨[2, 2, 2, 2, 2, 2, 2], (16, 8), false, false, none⟩⟩ [] (1, 1)
  have h2 := claim_C3_rank_dispatch
    ⟨⟨[3, 4], (3, 4), false, false, none⟩⟩ [] (1, 1)
  have h5 := claim_C3_rank_dispatch
    ⟨⟨[2, 2, 2, 2, 2], (4, 8), false, false, none⟩⟩ [] (1, 1)
  have h7p := claim_C3_rank_dispatch
    ⟨⟨[2, 2, 2, 2, 2, 2, 2], (16, 8), false, true, none⟩⟩ [] (1, 1)
  exact ⟨h6.1.1 (by decide), h7.1.2 (by decide), h2.2.1.1 (by decide),
    h5.2.1.2 (by decide), h7p.2.2.2.1⟩

/-!
## Broadcast handling of the AtOutCoords accessors (claim C4)

`getSamplerAtOutputCoords` (texture sampling, unpacked) and
`getPackedSamplerAtOutputCoords` (packed — used by both access models)
share the same coordinate rewriting: `coordsSnippet` sets
`coords.{fields[d + rankDiff]} = 0` for every `d` in
`getBroadcastDims(inShape, outShape)`, and `unpackedCoordsSnippet` then
passes components `rankDiff .. outRank-1` of the rewritten coordinates to
the rank `inRank` sampler. (`coords = 0;` for `outRank < 2` is the
same rewriting when the coordinate vector has one component.)

`getSamplerAtOutputCoordsCS` (compute shader, unpacked) has no such
rewriting at all: in its general branch it recomputes the flat output
position `index = gl_GlobalInvocationID.y * outTexShape[1] +
gl_GlobalInvocationID.x` and maps it through the input texture width,
`texR = index / inTexShape[1]; texC = index - texR * inTexShape[1]`.
-/

/-- Modelled from the spec: `getBroadcastDims` from ops/broadcast_util
(not under src/) — "when an input's logical shape has fewer axes or size 1
axes relative to the output, corresponding output coordinate components
are zeroed ... (classic NumPy-style broadcast-dimension alignment,
rightmost-aligned)": the input axes (rightmost aligned against the
output) whose size is 1 while the corresponding output size exceeds 1. -/
def getBroadcastDims (inShape outShape : List ℕ) : List ℕ :=
  (List.range inShape.length).filter
    (fun dim =>
      inShape.getD dim 1 = 1 ∧
        1 < outShape.getD (outShape.length - inShape.length + dim) 1)

/-- The input coordinates produced by the emitted accessor body of
`getSamplerAtOutputCoords` / `getPackedSamplerAtOutputCoords` from the
decoded output coordinates: zero the components `d + rankDiff` for the
broadcast dims `d`, then keep the last `inRank` components. -/
def samplerAtOutputCoords_coordMap (inShape outShape : List ℕ)
    (coords : List ℕ) : List ℕ :=
  let rankDiff := outShape.length - inShape.length
  let broadcastDims := getBroadcastDims inShape outShape
  let zeroed := coords.enum.map
    (fun p =>
      if p.1 ∈ broadcastDims.map (fun d => d + rankDiff) then 0 else p.2)
  (List.range inShape.length).map (fun i => zeroed.getD (i + rankDiff) 0)

/-- The input texture position computed by the general branch of
`getSamplerAtOutputCoordsCS` from the global invocation id: the flat
output position remapped through the input texture width — no broadcast
zeroing. -/
def getSamplerAtOutputCoordsCS_adr (outTexShape inTexShape : ℕ × ℕ)
    (gx gy : ℕ) : ℕ × ℕ :=
  let index := gy * outTexShape.2 + gx
  let texR := index / inTexShape.2
  let texC := index - texR * inTexShape.2
  (texC, texR)

theorem samplerAtOutputCoords_coordMap_getD (inShape outShape coords : List ℕ)
    (hlen : coords.length = outShape.length)
    (hle : inShape.length ≤ outShape.length)
    (i : ℕ) (hi : i < inShape.length) :
    (samplerAtOutputCoords_coordMap inShape outShape coords).getD i 0 =
      if i ∈ getBroadcastDims inShape outShape then 0
      else coords.getD (i + (outShape.length - inShape.length)) 0 := by
  have hj : i + (outShape.length - inShape.length) < coords.length := by
    omega
  unfold samplerAtOutputCoords_coordMap
  rw [List.getD_eq_getElem?_getD, List.getElem?_map, List.getElem?_range hi]
  simp only [Option.map_some', Option.getD_some]
  rw [List.getD_eq_getElem?_getD, List.getElem?_map, List.getElem?_enum,
    List.getElem?_eq_getElem hj]
  simp only [Option.map_some', Option.getD_some]
  have hmem : (i + (outShape.length - inShape.length)) ∈
      (getBroadcastDims inShape outShape).map
        (fun d => d + (outShape.length - inShape.length)) ↔
      i ∈ getBroadcastDims inShape outShape := by
    rw [List.mem_map]
    constructor
    · rintro ⟨d, hd, he⟩
      have : d = i := by omega
      rw [← this]
      exact hd
    · intro h
      exact ⟨i, h, rfl⟩
  by_cases hc : i ∈ getBroadcastDims inShape outShape
  · rw [if_pos (hmem.mpr hc), if_pos hc]
  · rw [if_neg (fun hx => hc (hmem.mp hx)), if_neg hc,
      List.getD_eq_getElem?_getD, List.getElem?_eq_getElem hj]
    rfl

/-- Counterexample to claim C4: in the compute shader (indexed, unpacked)
mode the accessor does not zero broadcast coordinates. For an input of
logical shape `[2]` (texture 1×2) read at output shape `[2, 2]` (texture
2×2), the output positions decoded to coordinates `(0, 0)` and `(1, 0)` —
differing only along the broadcast (missing) axis — are mapped to two
different input texture positions instead of routing to the same input
value. -/
theorem claim_C4_counterexample :
    getSamplerAtOutputCoordsCS_adr (2, 2) (1, 2) 0 0 ≠
      getSamplerAtOutputCoordsCS_adr (2, 2) (1, 2) 0 1 := by
  decide

/-- Claim C4 (amended): in the packed accessor (used by both access
models) and the unpacked texture sampling accessor, the emitted body zeroes
exactly the rightmost aligned broadcast components before addressing the
input — the i-th input coordinate is 0 when axis i is a broadcast dim and
the output component `i + rankDiff` otherwise — and consequently any two
output coordinates that agree on the non broadcast aligned components are
routed to the same input coordinates (the same single input value). The
unpacked compute shader accessor (`getSamplerAtOutputCoordsCS`) performs
no zeroing (see the counterexample). -/
theorem claim_C4_broadcast_zeroing (inShape outShape : List ℕ)
    (hle : inShape.length ≤ outShape.length) :
    (∀ coords : List ℕ, coords.length = outShape.length →
      ∀ i : ℕ, i < inShape.length →
      (samplerAtOutputCoords_coordMap inShape outShape coords).getD i 0 =
        if i ∈ getBroadcastDims inShape outShape then 0
        else coords.getD (i + (outShape.length - inShape.length)) 0) ∧
    (∀ coords1 coords2 : List ℕ,
      coords1.length = outShape.length → coords2.length = outShape.length →
      (∀ i : ℕ, i < inShape.length →
        i ∉ getBroadcastDims inShape outShape →
        coords1.getD (i + (outShape.length - inShape.length)) 0 =
          coords2.getD (i + (outShape.length - inShape.length)) 0) →
      samplerAtOutputCoords_coordMap inShape outShape coords1 =
        samplerAtOutputCoords_coordMap inShape outShape coords2) := by
  constructor
  · intro coords hlen i hi
    exact samplerAtOutputCoords_coordMap_getD inShape outShape coords hlen
      hle i hi
  · intro coords1 coords2 hlen1 hlen2 hagree
    have hL : ∀ coords : List ℕ,
        (samplerAtOutputCoords_coordMap inShape outShape coords).length =
          inShape.length := by
      intro coords
      unfold samplerAtOutputCoords_coordMap
      rw [List.length_map, List.length_range]
    refine List.ext_getElem (by rw [hL, hL]) ?_
    intro i hi1 hi2
    have hi : i < inShape.length := by
      have := hL coords1
      omega
    have e1 : (samplerAtOutputCoords_coordMap inShape outShape coords1)[i] =
        (samplerAtOutputCoords_coordMap inShape outShape coords1).getD i 0 := by
      rw [List.getD_eq_getElem?_getD, List.getElem?_eq_getElem hi1]
      rfl
    have e2 : (samplerAtOutputCoords_coordMap inShape outShape coords2)[i] =
        (samplerAtOutputCoords_coordMap inShape outShape coords2).getD i 0 := by
      rw [List.getD_eq_getElem?_getD, List.getElem?_eq_getElem hi2]
      rfl
    rw [e1, e2,
      samplerAtOutputCoords_coordMap_getD inShape outShape coords1 hlen1 hle
        i hi,
      samplerAtOutputCoords_coordMap_getD inShape outShape coords2 hlen2 hle
        i hi]
    by_cases hc : i ∈ getBroadcastDims inShape outShape
    · rw [if_pos hc, if_pos hc]
    · rw [if_neg hc, if_neg hc]
      exact hagree i hi hc

theorem claim_C4_broadcast_zeroing_witness :
    ((samplerAtOutputCoords_coordMap [1, 3] [2, 2, 3] [0, 1, 2]).getD 0 0 =
      0) ∧
    (samplerAtOutputCoords_coordMap [1, 3] [2, 2, 3] [0, 0, 2] =
      samplerAtOutputCoords_coordMap [1, 3] [2, 2, 3] [1, 1, 2]) := by
  have h := claim_C4_broadcast_zeroing [1, 3] [2, 2, 3] (by decide)
  constructor
  · have := h.1 [0, 1, 2] (by decide) 0 (by decide)
    rw [this]
    decide
  · exact h.2 [0, 0, 2] [1, 1, 2] (by decide) (by decide)
      (by decide)

/-!
## Coordinate formulas of the compute shader samplers and decoders (C7)

The encoders below are the texture positions `(texC, texR)` (GLSL
`ivec2(x, y)`) computed by the `getSamplerXDCS` / `getPackedSamplerXDCS`
generators from logical coordinates, and the decoders the logical
coordinates the `getOutputXDCoordsCS` / `getOutputPackedXDCoordsCS`
generators compute from `gl_GlobalInvocationID.xy = (gx, gy)`. The
`isUniform` branches (array indexing, no texture address) are excluded;
the rank 3 and 4 sampler models omit the squeeze branch (the round trip
theorems assume no size 1 axis there, and rank 2 models the squeeze
recursion fully). `imod` interpolations are written `%` (first arguments
are non negative, claim C10).
-/

/-- The emitted CS `uvFromFlat` helper: `texR = index / texNumC; texC =
index - texR * texNumC`, returned as `ivec2(texC, texR)`. -/
def uvFromFlat (texNumR texNumC index : ℕ) : ℕ × ℕ :=
  (index - index / texNumC * texNumC, index / texNumC)

/-- The emitted CS `packedUVfrom1D` helper. -/
def packedUVfrom1D (texNumR texNumC index : ℕ) : ℕ × ℕ :=
  (index / 2 - index / 2 / texNumC * texNumC, index / 2 / texNumC)

/-- The emitted CS `packedUVfrom3D` helper: flat texel index `b *
texelsInBatch + (row / 2) * texelsInLogicalRow + col / 2`, decomposed
through the packed texture width. -/
def packedUVfrom3D (texNumR texNumC texelsInBatch texelsInLogicalRow
    b row col : ℕ) : ℕ × ℕ :=
  let index := b * texelsInBatch + (row / 2) * texelsInLogicalRow + col / 2
  (index - index / texNumC * texNumC, index / texNumC)

/-- `getSamplerScalarCS` (non uniform): the 1×1 fast path or
`uvFromFlat(texNumR, texNumC, offset)`. -/
def getSamplerScalarCS_adr (texNumR texNumC offset : ℕ) : ℕ × ℕ :=
  if texNumR = 1 ∧ texNumC = 1 then (0, 0)
  else uvFromFlat texNumR texNumC offset

/-- `getSampler1DCS` (non uniform): branch order 1×1, `texNumC = 1`,
`texNumR = 1`, general `uvFromFlat`. -/
def getSampler1DCS_adr (texNumR texNumC offset index : ℕ) : ℕ × ℕ :=
  if texNumC = 1 ∧ texNumR = 1 then (0, 0)
  else if texNumC = 1 then (0, index + offset)
  else if texNumR = 1 then (index + offset, 0)
  else uvFromFlat texNumR texNumC (index + offset)

/-- `getSampler2DCS` (non uniform): branch order shape = texShape,
squeeze (into the scalar or 1D CS sampler with the kept coordinates),
`texNumC = 1`, `texNumR = 1`, general `uvFromFlat` of
`row * shape[1] + col + offset`. -/
def getSampler2DCS_adr (shape1 shape2 texNumR texNumC offset row col : ℕ) :
    ℕ × ℕ :=
  if shape1 = texNumR ∧ shape2 = texNumC then (col, row)
  else if shape1 = 1 ∧ shape2 = 1 then getSamplerScalarCS_adr texNumR texNumC offset
  else if shape1 = 1 then getSampler1DCS_adr texNumR texNumC offset col
  else if shape2 = 1 then getSampler1DCS_adr texNumR texNumC offset row
  else if texNumC = 1 then (0, row * shape2 + col + offset)
  else if texNumR = 1 then (row * shape2 + col + offset, 0)
  else uvFromFlat texNumR texNumC (row * shape2 + col + offset)

/-- `getSampler3DCS` without the squeeze branch (round trips below assume
no size 1 axis): branch order `texNumC = stride0`, `texNumC = stride1`,
general `UVfrom3D`. Modelled from the spec: the `UVfrom3D` helper the
general branch calls is defined nowhere under src/ — per spec section 4.1
("a physical linear index ... decomposed into logical coordinates via
successive integer division by the shape's per-axis strides, row-major")
it is the flat index `row * stride0 + col * stride1 + depth` decomposed as
in `uvFromFlat`. -/
def getSampler3DCS_adr (shape1 shape2 shape3 texNumR texNumC
    row col depth : ℕ) : ℕ × ℕ :=
  let stride0 := shape2 * shape3
  let stride1 := shape3
  if texNumC = stride0 then (col * stride1 + depth, row)
  else if texNumC = stride1 then (depth, row * shape2 + col)
  else uvFromFlat texNumR texNumC (row * stride0 + col * stride1 + depth)

/-- `getSampler4DCS` without the squeeze branch: branch order
`texNumC = stride0`, `texNumC = stride2`, general `UVfrom4D` (modelled
from the spec like `UVfrom3D`, with flat index
`row * stride0 + col * stride1 + depth * stride2 + depth2`). -/
def getSampler4DCS_adr (shape1 shape2 shape3 shape4 texNumR texNumC
    row col depth depth2 : ℕ) : ℕ × ℕ :=
  let stride2 := shape4
  let stride1 := shape3 * stride2
  let stride0 := shape2 * stride1
  if texNumC = stride0 then (col * stride1 + depth * stride2 + depth2, row)
  else if texNumC = stride2 then (depth2, row * (shape2 * shape3) + col * shape3 + depth)
  else uvFromFlat texNumR texNumC
    (row * stride0 + col * stride1 + depth * stride2 + depth2)

/-- `getOutputScalarCoords`: `return 0`. -/
def getOutputScalarCoords_dec : ℕ := 0

/-- `getOutput1DCoordsCS`: branch order `texShape[0] = 1` (return gx),
`texShape[1] = 1` (return gy), general flat position. -/
def getOutput1DCoordsCS_dec (texNumR texNumC gx gy : ℕ) : ℕ :=
  if texNumR = 1 then gx
  else if texNumC = 1 then gy
  else gy * texNumC + gx

/-- `getOutput2DCoordsCS`: branch order shape = texShape, `shape[1] = 1`,
`shape[0] = 1`, general `r = index / shape[1]; c = index - r * shape[1]`. -/
def getOutput2DCoordsCS_dec (shape1 shape2 texNumR texNumC gx gy : ℕ) :
    ℕ × ℕ :=
  if shape1 = texNumR ∧ shape2 = texNumC then (gy, gx)
  else if shape2 = 1 then (gy * texNumC + gx, 0)
  else if shape1 = 1 then (0, gy * texNumC + gx)
  else
    let index := gy * texNumC + gx
    (index / shape2, index - index / shape2 * shape2)

/-- `getOutput3DCoordsCS`: successive division by the strides. -/
def getOutput3DCoordsCS_dec (shape1 shape2 shape3 texNumR texNumC
    gx gy : ℕ) : ℕ × ℕ × ℕ :=
  let stride0 := shape2 * shape3
  let stride1 := shape3
  let index := gy * texNumC + gx
  let r := index / stride0
  let index1 := index - r * stride0
  let c := index1 / stride1
  (r, c, index1 - c * stride1)

/-- `getOutput4DCoordsCS`: successive division by the strides. -/
def getOutput4DCoordsCS_dec (shape1 shape2 shape3 shape4 texNumR texNumC
    gx gy : ℕ) : ℕ × ℕ × ℕ × ℕ :=
  let stride2 := shape4
  let stride1 := shape3 * stride2
  let stride0 := shape2 * stride1
  let index := gy * texNumC + gx
  let r := index / stride0
  let index1 := index - r * stride0
  let c := index1 / stride1
  let index2 := index1 - c * stride1
  let d := index2 / stride2
  (r, c, d, index2 - d * stride2)

/-- `getPackedSampler1DCS`: always `packedUVfrom1D` over the packed texel
shape. -/
def getPackedSampler1DCS_adr (texNumR texNumC index : ℕ) : ℕ × ℕ :=
  packedUVfrom1D ((texNumR + 1) / 2) ((texNumC + 1) / 2) index

/-- `getPackedSampler2DCS`: the shape = texShape fast path fetches
`ivec2(col, row)` directly; otherwise `packedUVfrom2D` over the packed
texel shape with `valuesPerRow = ceil(shape[1] / 2)`. -/
def getPackedSampler2DCS_adr (shape1 shape2 texNumR texNumC row col : ℕ) :
    ℕ × ℕ :=
  if shape1 = texNumR ∧ shape2 = texNumC then (col, row)
  else packedUVfrom2D ((shape2 + 1) / 2) ((texNumR + 1) / 2)
    ((texNumC + 1) / 2) row col

/-- `getPackedSampler3DCS` without the squeeze branch (`shape[0] = 1`
recurses into the rank 2 packed sampler): `packedUVfrom3D` with
`valuesPerRow = ceil(shape[2] / 2)`, `texelsInBatch = valuesPerRow *
ceil(shape[1] / 2)`. -/
def getPackedSampler3DCS_adr (shape1 shape2 shape3 texNumR texNumC
    b row col : ℕ) : ℕ × ℕ :=
  packedUVfrom3D ((texNumR + 1) / 2) ((texNumC + 1) / 2)
    (((shape3 + 1) / 2) * ((shape2 + 1) / 2)) ((shape3 + 1) / 2) b row col

/-- `getOutputPacked1DCoordsCS`: branch order `packedTexShape[0] = 1`
(return `2 * gx`), `packedTexShape[1] = 1` (return `2 * gy`), general —
which returns the flat texel index `gy * packedTexShape[1] + gx`
without doubling. -/
def getOutputPacked1DCoordsCS_dec (texNumR texNumC gx gy : ℕ) : ℕ :=
  if (texNumR + 1) / 2 = 1 then 2 * gx
  else if (texNumC + 1) / 2 = 1 then 2 * gy
  else gy * ((texNumC + 1) / 2) + gx

/-- `getOutputPacked2DCoordsCS`: the shape = texShape fast path returns
`2 * ivec2(gl_GlobalInvocationID.yx)`; otherwise the texel index is
decomposed through `texelsInLogicalRow = ceil(shape[1] / 2)` and both
components are doubled to the block corner. -/
def getOutputPacked2DCoordsCS_dec (shape1 shape2 texNumR texNumC
    gx gy : ℕ) : ℕ × ℕ :=
  if shape1 = texNumR ∧ shape2 = texNumC then (2 * gy, 2 * gx)
  else
    let texelsInLogicalRow := (shape2 + 1) / 2
    let index := gy * ((texNumC + 1) / 2) + gx
    (2 * (index / texelsInLogicalRow), index % texelsInLogicalRow * 2)

/-- `getOutputPacked3DCoordsCS`: batch by division through
`texelsInBatch`, then the 2D block corner. -/
def getOutputPacked3DCoordsCS_dec (shape1 shape2 shape3 texNumR texNumC
    gx gy : ℕ) : ℕ × ℕ × ℕ :=
  let texelsInLogicalRow := (shape3 + 1) / 2
  let texelsInBatch := texelsInLogicalRow * ((shape2 + 1) / 2)
  let index := gy * ((texNumC + 1) / 2) + gx
  let b := index / texelsInBatch
  let index1 := index - b * texelsInBatch
  (b, 2 * (index1 / texelsInLogicalRow), index1 % texelsInLogicalRow * 2)

lemma flat_div_eq (S r t : ℕ) (ht : t < S) : (r * S + t) / S = r := by
  have hS : 0 < S := by omega
  rw [Nat.mul_comm r S, Nat.mul_add_div hS, Nat.div_eq_of_lt ht]
  omega

lemma flat_mod_eq (S r t : ℕ) (ht : t < S) : (r * S + t) % S = t := by
  rw [Nat.mul_comm r S, Nat.mul_add_mod, Nat.mod_eq_of_lt ht]

lemma digit_lt (S T a b : ℕ) (ha : a < S) (hb : b < T) : a * T + b < S * T := by
  have h1 : a + 1 ≤ S := ha
  have h2 : (a + 1) * T ≤ S * T := mul_le_mul_right' h1 T
  have h3 : (a + 1) * T = a * T + T := by ring
  omega

lemma samplerScalarCS_recompose (texNumR texNumC offset : ℕ)
    (hsize : offset < texNumR * texNumC) :
    (getSamplerScalarCS_adr texNumR texNumC offset).2 * texNumC +
      (getSamplerScalarCS_adr texNumR texNumC offset).1 = offset := by
  simp only [getSamplerScalarCS_adr, uvFromFlat]
  split_ifs with h1
  · obtain ⟨ha, hb⟩ := h1
    subst ha; subst hb
    try dsimp only
    omega
  · dsimp only
    have := Nat.div_mul_le_self offset texNumC
    omega

lemma sampler1DCS_recompose (texNumR texNumC offset index : ℕ)
    (hsize : index + offset < texNumR * texNumC) :
    (getSampler1DCS_adr texNumR texNumC offset index).2 * texNumC +
      (getSampler1DCS_adr texNumR texNumC offset index).1 = index + offset := by
  simp only [getSampler1DCS_adr, uvFromFlat]
  split_ifs with h1 h2 h3
  · obtain ⟨ha, hb⟩ := h1
    subst ha; subst hb
    try dsimp only
    omega
  · subst h2
    try dsimp only
    omega
  · subst h3
    try dsimp only
    omega
  · dsimp only
    have := Nat.div_mul_le_self (index + offset) texNumC
    omega

lemma dec2D_flat (shape1 shape2 texNumR texNumC gx gy row col : ℕ)
    (hrow : row < shape1) (hcol : col < shape2)
    (hne : ¬(shape1 = texNumR ∧ shape2 = texNumC))
    (hg : gy * texNumC + gx = row * shape2 + col) :
    getOutput2DCoordsCS_dec shape1 shape2 texNumR texNumC gx gy = (row, col) := by
  simp only [getOutput2DCoordsCS_dec]
  split_ifs with hA hB
  · subst hA
    simp only [Prod.mk.injEq]
    omega
  · subst hB
    have h0 : row = 0 := by omega
    subst h0
    simp only [Prod.mk.injEq, true_and, and_true]
    omega
  · rw [hg, flat_div_eq shape2 row col hcol]
    simp only [Prod.mk.injEq, true_and, and_true]
    try omega

lemma dec3D_flat (shape1 shape2 shape3 texNumR texNumC gx gy r c d : ℕ)
    (hc : c < shape2) (hd : d < shape3)
    (hg : gy * texNumC + gx = r * (shape2 * shape3) + (c * shape3 + d)) :
    getOutput3DCoordsCS_dec shape1 shape2 shape3 texNumR texNumC gx gy = (r, c, d) := by
  have hlt : c * shape3 + d < shape2 * shape3 := digit_lt shape2 shape3 c d hc hd
  simp only [getOutput3DCoordsCS_dec]
  rw [hg, flat_div_eq (shape2 * shape3) r (c * shape3 + d) hlt]
  have hsub : r * (shape2 * shape3) + (c * shape3 + d) - r * (shape2 * shape3) =
      c * shape3 + d := by omega
  rw [hsub, flat_div_eq shape3 c d hd]
  simp only [Prod.mk.injEq, true_and, and_true]
  try omega

lemma dec4D_flat (shape1 shape2 shape3 shape4 texNumR texNumC gx gy r c d d2 : ℕ)
    (hc : c < shape2) (hd : d < shape3) (hd2 : d2 < shape4)
    (hg : gy * texNumC + gx =
      r * (shape2 * (shape3 * shape4)) + (c * (shape3 * shape4) + (d * shape4 + d2))) :
    getOutput4DCoordsCS_dec shape1 shape2 shape3 shape4 texNumR texNumC gx gy =
      (r, c, d, d2) := by
  have hlt1 : d * shape4 + d2 < shape3 * shape4 := digit_lt shape3 shape4 d d2 hd hd2
  have hlt0 : c * (shape3 * shape4) + (d * shape4 + d2) < shape2 * (shape3 * shape4) :=
    digit_lt shape2 (shape3 * shape4) c (d * shape4 + d2) hc hlt1
  simp only [getOutput4DCoordsCS_dec]
  rw [hg, flat_div_eq (shape2 * (shape3 * shape4)) r
    (c * (shape3 * shape4) + (d * shape4 + d2)) hlt0]
  have hsub0 : r * (shape2 * (shape3 * shape4)) +
      (c * (shape3 * shape4) + (d * shape4 + d2)) - r * (shape2 * (shape3 * shape4)) =
      c * (shape3 * shape4) + (d * shape4 + d2) := by omega
  rw [hsub0, flat_div_eq (shape3 * shape4) c (d * shape4 + d2) hlt1]
  have hsub1 : c * (shape3 * shape4) + (d * shape4 + d2) - c * (shape3 * shape4) =
      d * shape4 + d2 := by omega
  rw [hsub1, flat_div_eq shape4 d d2 hd2]
  simp only [Prod.mk.injEq, true_and, and_true]
  try omega

lemma roundTrip1DCS_aux (texNumR texNumC index : ℕ)
    (h : index < texNumR * texNumC) :
    getOutput1DCoordsCS_dec texNumR texNumC
      (getSampler1DCS_adr texNumR texNumC 0 index).1
      (getSampler1DCS_adr texNumR texNumC 0 index).2 = index := by
  by_cases h1 : texNumC = 1 ∧ texNumR = 1
  · obtain ⟨ha, hb⟩ := h1
    subst ha; subst hb
    simp [getSampler1DCS_adr, getOutput1DCoordsCS_dec]
    omega
  · by_cases h2 : texNumC = 1
    · subst h2
      have h3 : texNumR ≠ 1 := fun hh => h1 ⟨rfl, hh⟩
      simp [getSampler1DCS_adr, getOutput1DCoordsCS_dec, h1, h3]
    · by_cases h3 : texNumR = 1
      · subst h3
        simp [getSampler1DCS_adr, getOutput1DCoordsCS_dec, h1, h2]
      · simp only [getSampler1DCS_adr, getOutput1DCoordsCS_dec, uvFromFlat,
          if_neg h1, if_neg h2, if_neg h3, Nat.add_zero]
        try dsimp only
        have := Nat.div_mul_le_self index texNumC
        omega

lemma roundTrip2DCS_aux (shape1 shape2 texNumR texNumC row col : ℕ)
    (hrow : row < shape1) (hcol : col < shape2)
    (hsize : shape1 * shape2 ≤ texNumR * texNumC) :
    getOutput2DCoordsCS_dec shape1 shape2 texNumR texNumC
      (getSampler2DCS_adr shape1 shape2 texNumR texNumC 0 row col).1
      (getSampler2DCS_adr shape1 shape2 texNumR texNumC 0 row col).2 = (row, col) := by
  by_cases hA : shape1 = texNumR ∧ shape2 = texNumC
  · simp [getSampler2DCS_adr, getOutput2DCoordsCS_dec, hA.1, hA.2]
  · refine dec2D_flat shape1 shape2 texNumR texNumC _ _ row col hrow hcol hA ?_
    by_cases hB : shape1 = 1 ∧ shape2 = 1
    · obtain ⟨hB1, hB2⟩ := hB
      subst hB1; subst hB2
      have h0 : row = 0 := by omega
      have h1 : col = 0 := by omega
      subst h0; subst h1
      simp only [getSampler2DCS_adr, if_neg hA, and_self, and_true, true_and, if_true]
      have hrec := samplerScalarCS_recompose texNumR texNumC 0 (by omega)
      omega
    · by_cases hC : shape1 = 1
      · subst hC
        have hB2 : shape2 ≠ 1 := fun h => hB ⟨rfl, h⟩
        have h0 : row = 0 := by omega
        subst h0
        simp only [getSampler2DCS_adr, if_neg hA, true_and, if_neg hB2, if_true]
        have hrec := sampler1DCS_recompose texNumR texNumC 0 col (by omega)
        omega
      · by_cases hD : shape2 = 1
        · subst hD
          have h1 : col = 0 := by omega
          subst h1
          simp only [getSampler2DCS_adr, if_neg hA, and_true, if_neg hC, if_true]
          have hrec := sampler1DCS_recompose texNumR texNumC 0 row (by omega)
          omega
        · simp only [getSampler2DCS_adr, if_neg hA, if_neg hB, if_neg hC, if_neg hD]
          split_ifs with hE hF
          · subst hE
            dsimp only
            omega
          · subst hF
            dsimp only
            omega
          · dsimp only [uvFromFlat]
            have := Nat.div_mul_le_self (row * shape2 + col + 0) texNumC
            omega

lemma roundTrip3DCS_aux (shape1 shape2 shape3 texNumR texNumC row col depth : ℕ)
    (hcol : col < shape2) (hdepth : depth < shape3) :
    getOutput3DCoordsCS_dec shape1 shape2 shape3 texNumR texNumC
      (getSampler3DCS_adr shape1 shape2 shape3 texNumR texNumC row col depth).1
      (getSampler3DCS_adr shape1 shape2 shape3 texNumR texNumC row col depth).2 =
      (row, col, depth) := by
  refine dec3D_flat shape1 shape2 shape3 texNumR texNumC _ _ row col depth hcol hdepth ?_
  simp only [getSampler3DCS_adr]
  split_ifs with hA hB
  · subst hA
    try dsimp only
    try ring
  · subst hB
    try dsimp only
    try ring
  · dsimp only [uvFromFlat]
    have := Nat.div_mul_le_self (row * (shape2 * shape3) + col * shape3 + depth) texNumC
    omega

lemma roundTrip4DCS_aux
    (shape1 shape2 shape3 shape4 texNumR texNumC row col depth depth2 : ℕ)
    (hcol : col < shape2) (hdepth : depth < shape3) (hdepth2 : depth2 < shape4) :
    getOutput4DCoordsCS_dec shape1 shape2 shape3 shape4 texNumR texNumC
      (getSampler4DCS_adr shape1 shape2 shape3 shape4 texNumR texNumC
        row col depth depth2).1
      (getSampler4DCS_adr shape1 shape2 shape3 shape4 texNumR texNumC
        row col depth depth2).2 = (row, col, depth, depth2) := by
  refine dec4D_flat shape1 shape2 shape3 shape4 texNumR texNumC _ _ row col depth depth2
    hcol hdepth hdepth2 ?_
  simp only [getSampler4DCS_adr]
  split_ifs with hA hB
  · subst hA
    try dsimp only
    try ring
  · subst hB
    try dsimp only
    try ring
  · dsimp only [uvFromFlat]
    have := Nat.div_mul_le_self
      (row * (shape2 * (shape3 * shape4)) + col * (shape3 * shape4) +
        depth * shape4 + depth2) texNumC
    omega

lemma roundTripPacked1DCS_row1 (texNumR texNumC index : ℕ)
    (hA : (texNumR + 1) / 2 = 1)
    (hsize : index / 2 < (texNumR + 1) / 2 * ((texNumC + 1) / 2)) :
    getOutputPacked1DCoordsCS_dec texNumR texNumC
      (getPackedSampler1DCS_adr texNumR texNumC index).1
      (getPackedSampler1DCS_adr texNumR texNumC index).2 = 2 * (index / 2) := by
  rw [hA] at hsize
  simp only [getPackedSampler1DCS_adr, packedUVfrom1D, getOutputPacked1DCoordsCS_dec,
    if_pos hA]
  try dsimp only
  have h0 : index / 2 / ((texNumC + 1) / 2) = 0 := Nat.div_eq_of_lt (by omega)
  rw [h0]
  omega

lemma roundTripPacked1DCS_col1 (texNumR texNumC index : ℕ)
    (hA : (texNumR + 1) / 2 ≠ 1) (hB : (texNumC + 1) / 2 = 1) :
    getOutputPacked1DCoordsCS_dec texNumR texNumC
      (getPackedSampler1DCS_adr texNumR texNumC index).1
      (getPackedSampler1DCS_adr texNumR texNumC index).2 = 2 * (index / 2) := by
  simp only [getPackedSampler1DCS_adr, packedUVfrom1D, getOutputPacked1DCoordsCS_dec,
    if_neg hA, if_pos hB]
  try dsimp only
  rw [hB]
  omega

lemma roundTripPacked1DCS_general (texNumR texNumC index : ℕ)
    (hA : (texNumR + 1) / 2 ≠ 1) (hB : (texNumC + 1) / 2 ≠ 1) :
    getOutputPacked1DCoordsCS_dec texNumR texNumC
      (getPackedSampler1DCS_adr texNumR texNumC index).1
      (getPackedSampler1DCS_adr texNumR texNumC index).2 = index / 2 := by
  simp only [getPackedSampler1DCS_adr, packedUVfrom1D, getOutputPacked1DCoordsCS_dec,
    if_neg hA, if_neg hB]
  try dsimp only
  have := Nat.div_mul_le_self (index / 2) ((texNumC + 1) / 2)
  omega

lemma roundTripPacked2DCS_aux (shape1 shape2 texNumR texNumC row col : ℕ)
    (hne : ¬(shape1 = texNumR ∧ shape2 = texNumC)) (hcol : col < shape2) :
    getOutputPacked2DCoordsCS_dec shape1 shape2 texNumR texNumC
      (getPackedSampler2DCS_adr shape1 shape2 texNumR texNumC row col).1
      (getPackedSampler2DCS_adr shape1 shape2 texNumR texNumC row col).2 =
      (2 * (row / 2), col / 2 * 2) := by
  simp only [getPackedSampler2DCS_adr, packedUVfrom2D, getOutputPacked2DCoordsCS_dec,
    if_neg hne]
  try dsimp only
  have hkey : row / 2 * ((shape2 + 1) / 2) + col / 2 < (texNumC + 1) / 2 →
      True := fun _ => trivial
  have hrec := Nat.div_mul_le_self (row / 2 * ((shape2 + 1) / 2) + col / 2)
    ((texNumC + 1) / 2)
  have hidx : (row / 2 * ((shape2 + 1) / 2) + col / 2) / ((texNumC + 1) / 2) *
        ((texNumC + 1) / 2) +
      (row / 2 * ((shape2 + 1) / 2) + col / 2 -
        (row / 2 * ((shape2 + 1) / 2) + col / 2) / ((texNumC + 1) / 2) *
          ((texNumC + 1) / 2)) =
      row / 2 * ((shape2 + 1) / 2) + col / 2 := by omega
  rw [hidx]
  have hc2 : col / 2 < (shape2 + 1) / 2 := by omega
  rw [flat_div_eq ((shape2 + 1) / 2) (row / 2) (col / 2) hc2,
    flat_mod_eq ((shape2 + 1) / 2) (row / 2) (col / 2) hc2]

lemma roundTripPacked3DCS_aux (shape1 shape2 shape3 texNumR texNumC b row col : ℕ)
    (hrow : row < shape2) (hcol : col < shape3) :
    getOutputPacked3DCoordsCS_dec shape1 shape2 shape3 texNumR texNumC
      (getPackedSampler3DCS_adr shape1 shape2 shape3 texNumR texNumC b row col).1
      (getPackedSampler3DCS_adr shape1 shape2 shape3 texNumR texNumC b row col).2 =
      (b, 2 * (row / 2), col / 2 * 2) := by
  simp only [getPackedSampler3DCS_adr, packedUVfrom3D, getOutputPacked3DCoordsCS_dec]
  try dsimp only
  have hc2 : col / 2 < (shape3 + 1) / 2 := by omega
  have hr2 : row / 2 < (shape2 + 1) / 2 := by omega
  have hlt1 : row / 2 * ((shape3 + 1) / 2) + col / 2 <
      (shape3 + 1) / 2 * ((shape2 + 1) / 2) := by
    have h := digit_lt ((shape2 + 1) / 2) ((shape3 + 1) / 2) (row / 2) (col / 2) hr2 hc2
    rw [Nat.mul_comm ((shape2 + 1) / 2) ((shape3 + 1) / 2)] at h
    exact h
  have hrec := Nat.div_mul_le_self
    (b * ((shape3 + 1) / 2 * ((shape2 + 1) / 2)) + row / 2 * ((shape3 + 1) / 2) + col / 2)
    ((texNumC + 1) / 2)
  have hidx : (b * ((shape3 + 1) / 2 * ((shape2 + 1) / 2)) +
          row / 2 * ((shape3 + 1) / 2) + col / 2) / ((texNumC + 1) / 2) *
        ((texNumC + 1) / 2) +
      (b * ((shape3 + 1) / 2 * ((shape2 + 1) / 2)) +
          row / 2 * ((shape3 + 1) / 2) + col / 2 -
        (b * ((shape3 + 1) / 2 * ((shape2 + 1) / 2)) +
            row / 2 * ((shape3 + 1) / 2) + col / 2) / ((texNumC + 1) / 2) *
          ((texNumC + 1) / 2)) =
      b * ((shape3 + 1) / 2 * ((shape2 + 1) / 2)) +
        row / 2 * ((shape3 + 1) / 2) + col / 2 := by omega
  rw [hidx]
  have hassoc : b * ((shape3 + 1) / 2 * ((shape2 + 1) / 2)) +
      row / 2 * ((shape3 + 1) / 2) + col / 2 =
      b * ((shape3 + 1) / 2 * ((shape2 + 1) / 2)) +
        (row / 2 * ((shape3 + 1) / 2) + col / 2) := by ring
  rw [hassoc, flat_div_eq ((shape3 + 1) / 2 * ((shape2 + 1) / 2)) b
    (row / 2 * ((shape3 + 1) / 2) + col / 2) hlt1]
  have hsub : b * ((shape3 + 1) / 2 * ((shape2 + 1) / 2)) +
      (row / 2 * ((shape3 + 1) / 2) + col / 2) -
      b * ((shape3 + 1) / 2 * ((shape2 + 1) / 2)) =
      row / 2 * ((shape3 + 1) / 2) + col / 2 := by omega
  rw [hsub, flat_div_eq ((shape3 + 1) / 2) (row / 2) (col / 2) hc2,
    flat_mod_eq ((shape3 + 1) / 2) (row / 2) (col / 2) hc2]

/-- C7: in packed mode the sampler/decoder coordinate formulas are not
mutually inverse on all in-bounds coordinates: for logical shape [2, 3] on
a 2×4 texture, the packed 2D sampler sends the in-bounds coordinate (1, 1)
to the texel whose decoded output coordinate is the block corner (0, 0),
not (1, 1). -/
theorem claim_C7_counterexample :
    getOutputPacked2DCoordsCS_dec 2 3 2 4
      (getPackedSampler2DCS_adr 2 3 2 4 1 1).1
      (getPackedSampler2DCS_adr 2 3 2 4 1 1).2 ≠ (1, 1) := by decide

/-- C7 (amended, compute-shader path): the unpacked sampler/decoder
coordinate formulas are mutually inverse for every rank 0–4 — scalar
decodes to the only coordinate 0; rank 1 round-trips every flat index
that fits the texture; rank 2 round-trips every in-bounds (row, col),
including the shape-equals-texShape fast path and the squeeze recursion
through the 1D/scalar samplers; ranks 3 and 4 round-trip every in-bounds
coordinate when no axis has size 1 (otherwise the generators take the
squeeze branch). In packed mode the round trip lands on the 2×2 block
corner (2·(row/2), (col/2)·2) instead of the original coordinate: rank 2
(off the fast path) and rank 3 (batch exact, row/col at the corner) —
and the packed rank 1 decoder's general branch returns the flat texel
index index/2 (its two single-row/column branches return the doubled
texel coordinate 2·(index/2)). -/
theorem claim_C7_round_trip :
    getOutputScalarCoords_dec = 0
    ∧ (∀ texNumR texNumC index : ℕ, index < texNumR * texNumC →
        getOutput1DCoordsCS_dec texNumR texNumC
          (getSampler1DCS_adr texNumR texNumC 0 index).1
          (getSampler1DCS_adr texNumR texNumC 0 index).2 = index)
    ∧ (∀ shape1 shape2 texNumR texNumC row col : ℕ,
        row < shape1 → col < shape2 → shape1 * shape2 ≤ texNumR * texNumC →
        getOutput2DCoordsCS_dec shape1 shape2 texNumR texNumC
          (getSampler2DCS_adr shape1 shape2 texNumR texNumC 0 row col).1
          (getSampler2DCS_adr shape1 shape2 texNumR texNumC 0 row col).2 = (row, col))
    ∧ (∀ shape1 shape2 shape3 texNumR texNumC row col depth : ℕ,
        shape1 ≠ 1 → shape2 ≠ 1 → shape3 ≠ 1 →
        row < shape1 → col < shape2 → depth < shape3 →
        getOutput3DCoordsCS_dec shape1 shape2 shape3 texNumR texNumC
          (getSampler3DCS_adr shape1 shape2 shape3 texNumR texNumC row col depth).1
          (getSampler3DCS_adr shape1 shape2 shape3 texNumR texNumC row col depth).2 =
          (row, col, depth))
    ∧ (∀ shape1 shape2 shape3 shape4 texNumR texNumC row col depth depth2 : ℕ,
        shape1 ≠ 1 → shape2 ≠ 1 → shape3 ≠ 1 → shape4 ≠ 1 →
        row < shape1 → col < shape2 → depth < shape3 → depth2 < shape4 →
        getOutput4DCoordsCS_dec shape1 shape2 shape3 shape4 texNumR texNumC
          (getSampler4DCS_adr shape1 shape2 shape3 shape4 texNumR texNumC
            row col depth depth2).1
          (getSampler4DCS_adr shape1 shape2 shape3 shape4 texNumR texNumC
            row col depth depth2).2 = (row, col, depth, depth2))
    ∧ (∀ texNumR texNumC index : ℕ,
        index / 2 < (texNumR + 1) / 2 * ((texNumC + 1) / 2) →
        ((texNumR + 1) / 2 = 1 →
          getOutputPacked1DCoordsCS_dec texNumR texNumC
            (getPackedSampler1DCS_adr texNumR texNumC index).1
            (getPackedSampler1DCS_adr texNumR texNumC index).2 = 2 * (index / 2))
        ∧ ((texNumR + 1) / 2 ≠ 1 → (texNumC + 1) / 2 = 1 →
          getOutputPacked1DCoordsCS_dec texNumR texNumC
            (getPackedSampler1DCS_adr texNumR texNumC index).1
            (getPackedSampler1DCS_adr texNumR texNumC index).2 = 2 * (index / 2))
        ∧ ((texNumR + 1) / 2 ≠ 1 → (texNumC + 1) / 2 ≠ 1 →
          getOutputPacked1DCoordsCS_dec texNumR texNumC
            (getPackedSampler1DCS_adr texNumR texNumC index).1
            (getPackedSampler1DCS_adr texNumR texNumC index).2 = index / 2))
    ∧ (∀ shape1 shape2 texNumR texNumC row col : ℕ,
        ¬(shape1 = texNumR ∧ shape2 = texNumC) → col < shape2 →
        getOutputPacked2DCoordsCS_dec shape1 shape2 texNumR texNumC
          (getPackedSampler2DCS_adr shape1 shape2 texNumR texNumC row col).1
          (getPackedSampler2DCS_adr shape1 shape2 texNumR texNumC row col).2 =
          (2 * (row / 2), col / 2 * 2))
    ∧ (∀ shape1 shape2 shape3 texNumR texNumC b row col : ℕ,
        shape1 ≠ 1 → row < shape2 → col < shape3 →
        getOutputPacked3DCoordsCS_dec shape1 shape2 shape3 texNumR texNumC
          (getPackedSampler3DCS_adr shape1 shape2 shape3 texNumR texNumC b row col).1
          (getPackedSampler3DCS_adr shape1 shape2 shape3 texNumR texNumC b row col).2 =
          (b, 2 * (row / 2), col / 2 * 2)) := by
  refine ⟨rfl, roundTrip1DCS_aux, roundTrip2DCS_aux, ?_, ?_, ?_, ?_, ?_⟩
  · intro shape1 shape2 shape3 texNumR texNumC row col depth _ _ _ _ hcol hdepth
    exact roundTrip3DCS_aux shape1 shape2 shape3 texNumR texNumC row col depth hcol hdepth
  · intro shape1 shape2 shape3 shape4 texNumR texNumC row col depth depth2
      _ _ _ _ _ hcol hdepth hdepth2
    exact roundTrip4DCS_aux shape1 shape2 shape3 shape4 texNumR texNumC
      row col depth depth2 hcol hdepth hdepth2
  · intro texNumR texNumC index hsize
    exact ⟨fun hA => roundTripPacked1DCS_row1 texNumR texNumC index hA hsize,
      fun hA hB => roundTripPacked1DCS_col1 texNumR texNumC index hA hB,
      fun hA hB => roundTripPacked1DCS_general texNumR texNumC index hA hB⟩
  · intro shape1 shape2 texNumR texNumC row col hne hcol
    exact roundTripPacked2DCS_aux shape1 shape2 texNumR texNumC row col hne hcol
  · intro shape1 shape2 shape3 texNumR texNumC b row col _ hrow hcol
    exact roundTripPacked3DCS_aux shape1 shape2 shape3 texNumR texNumC b row col hrow hcol

/-- C7 witness: concrete instances of every quantified conjunct — rank 1
on a 3×4 texture at flat index 7; rank 2 with logical [3, 5] on a 4×4
texture at (2, 3); rank 3 with [2, 3, 4] on 5×5 at (1, 2, 3); rank 4 with
[2, 3, 4, 5] on 11×11 at (1, 2, 3, 4); packed rank 1 on a 5×6 texture at
index 5 (general branch: texel index 2); packed rank 2 with [3, 5] on 4×6
at (3, 4) landing on block corner (2, 4); packed rank 3 with [2, 3, 5] on
6×6 at (1, 2, 3) landing on (1, 2, 2). -/
theorem claim_C7_round_trip_witness :
    getOutput1DCoordsCS_dec 3 4 (getSampler1DCS_adr 3 4 0 7).1
      (getSampler1DCS_adr 3 4 0 7).2 = 7
    ∧ getOutput2DCoordsCS_dec 3 5 4 4 (getSampler2DCS_adr 3 5 4 4 0 2 3).1
      (getSampler2DCS_adr 3 5 4 4 0 2 3).2 = (2, 3)
    ∧ getOutput3DCoordsCS_dec 2 3 4 5 5 (getSampler3DCS_adr 2 3 4 5 5 1 2 3).1
      (getSampler3DCS_adr 2 3 4 5 5 1 2 3).2 = (1, 2, 3)
    ∧ getOutput4DCoordsCS_dec 2 3 4 5 11 11
      (getSampler4DCS_adr 2 3 4 5 11 11 1 2 3 4).1
      (getSampler4DCS_adr 2 3 4 5 11 11 1 2 3 4).2 = (1, 2, 3, 4)
    ∧ getOutputPacked1DCoordsCS_dec 5 6 (getPackedSampler1DCS_adr 5 6 5).1
      (getPackedSampler1DCS_adr 5 6 5).2 = 2
    ∧ getOutputPacked2DCoordsCS_dec 3 5 4 6 (getPackedSampler2DCS_adr 3 5 4 6 3 4).1
      (getPackedSampler2DCS_adr 3 5 4 6 3 4).2 = (2, 4)
    ∧ getOutputPacked3DCoordsCS_dec 2 3 5 6 6
      (getPackedSampler3DCS_adr 2 3 5 6 6 1 2 3).1
      (getPackedSampler3DCS_adr 2 3 5 6 6 1 2 3).2 = (1, 2, 2) := by
  refine ⟨claim_C7_round_trip.2.1 3 4 7 (by decide),
    claim_C7_round_trip.2.2.1 3 5 4 4 2 3 (by decide) (by decide) (by decide),
    claim_C7_round_trip.2.2.2.1 2 3 4 5 5 1 2 3 (by decide) (by decide) (by decide)
      (by decide) (by decide) (by decide),
    claim_C7_round_trip.2.2.2.2.1 2 3 4 5 11 11 1 2 3 4 (by decide) (by decide)
      (by decide) (by decide) (by decide) (by decide) (by decide) (by decide),
    (claim_C7_round_trip.2.2.2.2.2.1 5 6 5 (by decide)).2.2 (by decide) (by decide),
    claim_C7_round_trip.2.2.2.2.2.2.1 3 5 4 6 3 4 (by decide) (by decide),
    claim_C7_round_trip.2.2.2.2.2.2.2 2 3 5 6 6 1 2 3 (by decide) (by decide)
      (by decide)⟩

end TFJS
